import Mathlib

/-!
# counterfeiter: the generated fake `FakeSomeInterface` and the driver `main`

A shallow embedding of `fixtures/fakes/fake_some_interface.go` and of `main.go`.

* A Go string is a sequence of bytes (`GoString`); a byte and a `uint64` are
  natural numbers, no operation of the program computes with them.
* A Go slice is a header (backing array, length, capacity) over a store of
  backing arrays, so that sharing between two headers is visible.
* `sync.RWMutex` is a writer flag and a reader count; a call that would wait
  is reported as `blocked` (in a run of one goroutine nobody can release it).
* A stub is a function of the arguments of its method; `Acting.Method1` and
  `Acting.Method2` are the two methods with a stub call that also acts on the
  fake, as a closure can through the exported fields and methods.
* Every method of the fake returns, next to its value and the new memory, the
  list of the mutex calls, field accesses and stub calls it performed, each
  with the mutex state read from the memory at that point.
* `main` runs against a `World` that gives the results of the packages
  `arguments`, `locator`, `generator` and of the standard library; what the
  process prints, creates and writes is collected in a list of effects.
-/

namespace Counterfeiter

/-! ## Go values -/

/-- A Go `string`: a sequence of bytes. -/
abbrev GoString := List Nat

/-- A Go `error` value: `none` is `nil`, `some msg` an error with its message. -/
abbrev GoError := Option GoString

/-! ## Slices over backing arrays -/

/-- The store of backing arrays of one element type; an array is named by its index. -/
abbrev Arrays (α : Type) := List (List α)

/-- A slice header. The nil slice has length and capacity zero. -/
structure Slice where
  array : Nat
  len : Nat
  cap : Nat
deriving DecidableEq, Repr

/-- The nil slice, the zero value of a slice-typed field. -/
def Slice.nil : Slice := { array := 0, len := 0, cap := 0 }

/-- The backing array a header points to (empty when there is none). -/
def Slice.backing {α : Type} (h : Arrays α) (s : Slice) : List α :=
  h.getD s.array []

/-- The elements visible through a header: the first `len` cells of its array. -/
def Slice.elems {α : Type} (h : Arrays α) (s : Slice) : List α :=
  (s.backing h).take s.len

/-- A header is well formed in a store when `len ≤ cap` and the capacity fits the array. -/
def Slice.WF {α : Type} (h : Arrays α) (s : Slice) : Prop :=
  s.len ≤ s.cap ∧ s.cap ≤ (s.backing h).length

/-- Go `append(s, x)`. With spare capacity the element is written in place in
the shared backing array; otherwise a fresh array is allocated, the visible
elements are copied and the rest is zeroed. The amount of extra room the
runtime gives a fresh array is the parameter `grow`. -/
def goAppend {α : Type} (grow : Nat → Nat) (zero : α) (h : Arrays α) (s : Slice) (x : α) :
    Arrays α × Slice :=
  if s.len < s.cap then
    (h.set s.array ((s.backing h).set s.len x), { s with len := s.len + 1 })
  else
    (h ++ [s.elems h ++ x :: List.replicate (grow s.cap) zero],
      { array := h.length, len := s.len + 1, cap := s.len + 1 + grow s.cap })

/-- Go `s[i] = v` on a slice: panics (`none`) when `i` is not below `len(s)`. -/
def Slice.store {α : Type} (h : Arrays α) (s : Slice) (i : Nat) (v : α) : Option (Arrays α) :=
  if i < s.len then some (h.set s.array ((s.backing h).set i v)) else none

end Counterfeiter

/-! ## sync.RWMutex -/

namespace sync

/-- State of a reader/writer mutex. -/
structure RWMutex where
  writer : Bool
  readerCount : Nat
deriving DecidableEq, Repr

/-- `Lock`: succeeds when nobody holds the mutex, waits (`none`) otherwise. -/
def RWMutex.Lock (m : RWMutex) : Option RWMutex :=
  if m.writer = false ∧ m.readerCount = 0 then some { m with writer := true } else none

/-- `Unlock`: releases the writer; unlocking an unlocked mutex is a fatal error (`none`). -/
def RWMutex.Unlock (m : RWMutex) : Option RWMutex :=
  if m.writer = true then some { m with writer := false } else none

/-- `RLock`: succeeds when no writer holds the mutex, waits (`none`) otherwise. -/
def RWMutex.RLock (m : RWMutex) : Option RWMutex :=
  if m.writer = false then some { m with readerCount := m.readerCount + 1 } else none

/-- `RUnlock`: releases one reader; a fatal error (`none`) when there is none. -/
def RWMutex.RUnlock (m : RWMutex) : Option RWMutex :=
  if 0 < m.readerCount then some { m with readerCount := m.readerCount - 1 } else none

end sync

namespace Counterfeiter

/-! ## The fake -/

/-- The call record of `Method1`: `struct { Arg1 string; Arg2 uint64 }`. -/
structure Method1Call where
  Arg1 : GoString
  Arg2 : Nat
deriving DecidableEq, Repr

/-- The canned-return record of `Method1`: `struct { _error error }`. -/
structure Method1ReturnsRecord where
  _error : GoError
deriving DecidableEq, Repr

/-- The struct `FakeSomeInterface`; a `nil` stub is `none`. -/
structure FakeSomeInterface where
  RWMutex : sync.RWMutex
  Method1Stub : Option (GoString → Nat → GoError)
  method1Calls : Slice
  method1Returns : Method1ReturnsRecord
  Method2Stub : Option (Unit → Unit)
  method2Calls : Slice

/-- The fake together with the backing arrays of its two call logs. -/
structure Memory where
  fake : FakeSomeInterface
  calls1 : Arrays Method1Call
  calls2 : Arrays Unit

/-- The fields of the fake that hold data. -/
inductive Slot where
  | method1Calls
  | method1Returns
  | method2Calls
deriving DecidableEq, Repr

/-- What a method did, in order. `write`, `read` and `stub` carry the mutex
state found in the memory at that moment. -/
inductive Event where
  | Lock
  | Unlock
  | RLock
  | RUnlock
  | write (slot : Slot) (mu : sync.RWMutex)
  | read (slot : Slot) (mu : sync.RWMutex)
  | stub (method : Nat) (mu : sync.RWMutex)
deriving DecidableEq, Repr

/-- How a method call ends: it returns, it waits for the mutex forever, or the
runtime aborts on an unlock of an unlocked mutex. -/
inductive Outcome (α : Type) where
  | returned (value : α) (m : Memory) (trace : List Event)
  | blocked (trace : List Event)
  | fatal (trace : List Event)

/-- `NewFakeSomeInterface`: `&FakeSomeInterface{}`, every field at its zero value. -/
def NewFakeSomeInterface : Memory :=
  { fake :=
      { RWMutex := { writer := false, readerCount := 0 }
        Method1Stub := none
        method1Calls := Slice.nil
        method1Returns := { _error := none }
        Method2Stub := none
        method2Calls := Slice.nil }
    calls1 := []
    calls2 := [] }

/-- The deferred `fake.Unlock()`, run when the method returns `value`. -/
def deferredUnlock {α : Type} (value : α) (m : Memory) (trace : List Event) : Outcome α :=
  match m.fake.RWMutex.Unlock with
  | none => .fatal trace
  | some mu =>
    .returned value { m with fake := { m.fake with RWMutex := mu } } (trace ++ [Event.Unlock])

/-- The deferred `fake.RUnlock()`, run when the accessor returns `value`. -/
def deferredRUnlock {α : Type} (value : α) (m : Memory) (trace : List Event) : Outcome α :=
  match m.fake.RWMutex.RUnlock with
  | none => .fatal trace
  | some mu =>
    .returned value { m with fake := { m.fake with RWMutex := mu } } (trace ++ [Event.RUnlock])

/-- The method `Method1(arg1, arg2)`. -/
def Method1 (grow : Nat → Nat) (m : Memory) (arg1 : GoString) (arg2 : Nat) : Outcome GoError :=
  match m.fake.RWMutex.Lock with
  | none => .blocked []
  | some mu =>
    let m1 : Memory := { m with fake := { m.fake with RWMutex := mu } }
    let r := goAppend grow { Arg1 := [], Arg2 := 0 } m1.calls1 m1.fake.method1Calls
      { Arg1 := arg1, Arg2 := arg2 }
    let m2 : Memory := { m1 with calls1 := r.1, fake := { m1.fake with method1Calls := r.2 } }
    let trace := [Event.Lock, Event.write Slot.method1Calls m1.fake.RWMutex]
    match m2.fake.Method1Stub with
    | some stub => deferredUnlock (stub arg1 arg2) m2 (trace ++ [Event.stub 1 m2.fake.RWMutex])
    | none =>
      deferredUnlock m2.fake.method1Returns._error m2
        (trace ++ [Event.read Slot.method1Returns m2.fake.RWMutex])

/-- The accessor `Method1Calls()`: returns the slice header held in the field. -/
def Method1Calls (m : Memory) : Outcome Slice :=
  match m.fake.RWMutex.RLock with
  | none => .blocked []
  | some mu =>
    let m1 : Memory := { m with fake := { m.fake with RWMutex := mu } }
    deferredRUnlock m1.fake.method1Calls m1
      [Event.RLock, Event.read Slot.method1Calls m1.fake.RWMutex]

/-- The setter `Method1Returns(_error)`: one assignment, no mutex call. -/
def Method1Returns (m : Memory) (_error : GoError) : Outcome Unit :=
  .returned ()
    { m with fake := { m.fake with method1Returns := { _error := _error } } }
    [Event.write Slot.method1Returns m.fake.RWMutex]

/-- The method `Method2()`. -/
def Method2 (grow : Nat → Nat) (m : Memory) : Outcome Unit :=
  match m.fake.RWMutex.Lock with
  | none => .blocked []
  | some mu =>
    let m1 : Memory := { m with fake := { m.fake with RWMutex := mu } }
    let r := goAppend grow () m1.calls2 m1.fake.method2Calls ()
    let m2 : Memory := { m1 with calls2 := r.1, fake := { m1.fake with method2Calls := r.2 } }
    let trace := [Event.Lock, Event.write Slot.method2Calls m1.fake.RWMutex]
    match m2.fake.Method2Stub with
    | some stub =>
      let _ := stub ()
      deferredUnlock () m2 (trace ++ [Event.stub 2 m2.fake.RWMutex])
    | none => deferredUnlock () m2 trace

/-- The accessor `Method2Calls()`: returns the slice header held in the field. -/
def Method2Calls (m : Memory) : Outcome Slice :=
  match m.fake.RWMutex.RLock with
  | none => .blocked []
  | some mu =>
    let m1 : Memory := { m with fake := { m.fake with RWMutex := mu } }
    deferredRUnlock m1.fake.method2Calls m1
      [Event.RLock, Event.read Slot.method2Calls m1.fake.RWMutex]

/-! ## Sequences of operations on one fake -/

/-- What a test does with the fake between two observations: it calls a
method, or assigns one of the two exported stub fields. -/
inductive Op where
  | Method1 (arg1 : GoString) (arg2 : Nat)
  | Method1Calls
  | Method1Returns (_error : GoError)
  | Method2
  | Method2Calls
  | setMethod1Stub (stub : Option (GoString → Nat → GoError))
  | setMethod2Stub (stub : Option (Unit → Unit))

/-- The memory a call leaves behind, when it returns. -/
def Outcome.memory {α : Type} : Outcome α → Option Memory
  | .returned _ m _ => some m
  | .blocked _ => none
  | .fatal _ => none

/-- The value a call returns, when it returns. -/
def Outcome.value {α : Type} : Outcome α → Option α
  | .returned v _ _ => some v
  | .blocked _ => none
  | .fatal _ => none

/-- The events of a call, whether it returns or not. -/
def Outcome.trace {α : Type} : Outcome α → List Event
  | .returned _ _ t => t
  | .blocked t => t
  | .fatal t => t

/-- One operation; `none` when the call does not return. -/
def Op.apply (grow : Nat → Nat) (m : Memory) : Op → Option Memory
  | .Method1 arg1 arg2 => (Counterfeiter.Method1 grow m arg1 arg2).memory
  | .Method1Calls => (Counterfeiter.Method1Calls m).memory
  | .Method1Returns e => (Counterfeiter.Method1Returns m e).memory
  | .Method2 => (Counterfeiter.Method2 grow m).memory
  | .Method2Calls => (Counterfeiter.Method2Calls m).memory
  | .setMethod1Stub stub => some { m with fake := { m.fake with Method1Stub := stub } }
  | .setMethod2Stub stub => some { m with fake := { m.fake with Method2Stub := stub } }

/-- A sequence of operations, in order; `none` as soon as one call does not return. -/
def runOps (grow : Nat → Nat) : List Op → Memory → Option Memory
  | [], m => some m
  | op :: ops, m =>
    match op.apply grow m with
    | none => none
    | some m1 => runOps grow ops m1

/-- The operation is a call of the setter `Method1Returns`. -/
def Op.isReturnsSetter : Op → Bool
  | .Method1Returns _ => true
  | _ => false

/-- The mutex is free and both call logs are well-formed slices: the state of
a fake between two calls of a single goroutine. -/
def Memory.WF (m : Memory) : Prop :=
  m.fake.RWMutex = { writer := false, readerCount := 0 } ∧
  m.fake.method1Calls.WF m.calls1 ∧ m.fake.method2Calls.WF m.calls2

/-- A header `t` taken earlier from the log `s` still fits its array, and
where it shares the array of `s` it is not longer than `s`. -/
def Slice.Snapshot {α : Type} (h : Arrays α) (t s : Slice) : Prop :=
  t.len ≤ (t.backing h).length ∧ (t.array = s.array → t.len ≤ s.len)

/-- The memory once `Method1` has appended its call record. -/
def Memory.record1 (grow : Nat → Nat) (m : Memory) (arg1 : GoString) (arg2 : Nat) : Memory :=
  { m with
    calls1 := (goAppend grow { Arg1 := [], Arg2 := 0 } m.calls1 m.fake.method1Calls
      { Arg1 := arg1, Arg2 := arg2 }).1
    fake := { m.fake with
      method1Calls := (goAppend grow { Arg1 := [], Arg2 := 0 } m.calls1 m.fake.method1Calls
        { Arg1 := arg1, Arg2 := arg2 }).2 } }

/-- The memory once `Method2` has appended its call record. -/
def Memory.record2 (grow : Nat → Nat) (m : Memory) : Memory :=
  { m with
    calls2 := (goAppend grow () m.calls2 m.fake.method2Calls ()).1
    fake := { m.fake with
      method2Calls := (goAppend grow () m.calls2 m.fake.method2Calls ()).2 } }

/-- The memory with the mutex in the given state. -/
def Memory.withMutex (m : Memory) (mu : sync.RWMutex) : Memory :=
  { m with fake := { m.fake with RWMutex := mu } }

/-- The mutex held by one writer. -/
def heldExclusive : sync.RWMutex := { writer := true, readerCount := 0 }

/-- The mutex held by nobody. -/
def free : sync.RWMutex := { writer := false, readerCount := 0 }

/-- The memory an operation leaves behind when it starts with the mutex free. -/
def Op.after (grow : Nat → Nat) (m : Memory) : Op → Memory
  | .Method1 arg1 arg2 => m.record1 grow arg1 arg2
  | .Method1Calls => m
  | .Method1Returns e => { m with fake := { m.fake with method1Returns := { _error := e } } }
  | .Method2 => m.record2 grow
  | .Method2Calls => m
  | .setMethod1Stub stub => { m with fake := { m.fake with Method1Stub := stub } }
  | .setMethod2Stub stub => { m with fake := { m.fake with Method2Stub := stub } }

/-- The call records the `Method1` invocations of a sequence append, in order. -/
def logged1 : List Op → List Method1Call
  | [] => []
  | .Method1 arg1 arg2 :: ops => { Arg1 := arg1, Arg2 := arg2 } :: logged1 ops
  | _ :: ops => logged1 ops

/-- The number of `Method2` invocations in a sequence. -/
def count2 : List Op → Nat
  | [] => 0
  | .Method2 :: ops => count2 ops + 1
  | _ :: ops => count2 ops

/-- The invocations `Method1(a_1, b_1) ... Method1(a_N, b_N)`. -/
def invocations1 (args : List (GoString × Nat)) : List Op :=
  args.map (fun p => Op.Method1 p.1 p.2)

/-- `N` invocations of `Method2()`. -/
def invocations2 (n : Nat) : List Op :=
  List.replicate n Op.Method2

/-- The doubling growth of a fresh backing array, used in the examples. -/
def doubling (cap : Nat) : Nat := cap

/-- A fresh fake whose `Method1Stub` returns the error `"e"` and whose `Method2Stub` is set. -/
def stubbedFake : Memory :=
  { NewFakeSomeInterface with
    fake := { NewFakeSomeInterface.fake with
      Method1Stub := some (fun _ _ => some [101])
      Method2Stub := some (fun _ => ()) } }

/-- The memory at the moment `Method1("a", 1)` on `stubbedFake` calls the stub:
the mutex is held by the caller and the call record is appended. -/
def atStubCall : Memory :=
  (stubbedFake.record1 doubling [97] 1).withMutex heldExclusive

/-- A test that takes a snapshot of the `Method1` log after `Method1("a", 1)`,
assigns `snapshot[0] = {"x", 9}`, and reads the log again. The result is the
log as read before the assignment and as read after it. -/
def snapshotAssignment : Option (List Method1Call × List Method1Call) :=
  match runOps doubling [Op.Method1 [97] 1] NewFakeSomeInterface with
  | none => none
  | some m =>
    match (Method1Calls m).value with
    | none => none
    | some snapshot =>
      match snapshot.store m.calls1 0 { Arg1 := [120], Arg2 := 9 } with
      | none => none
      | some arrays =>
        match (Method1Calls { m with calls1 := arrays }).value with
        | none => none
        | some log => some (snapshot.elems m.calls1, log.elems arrays)

/-- The stubbed fake after `Method1("a", 1)` and `Method2()`. -/
def loggedFake : Memory :=
  (stubbedFake.record1 doubling [97] 1).record2 doubling

/-! ## main.go -/

namespace path

/-- Go standard library `path.lastSlash`: the index of the last `/` of `s`,
`none` for the result `-1`. -/
def lastSlash : GoString → Option Nat
  | [] => none
  | c :: s =>
    match lastSlash s with
    | some i => some (i + 1)
    | none => if c = 47 then some 0 else none

/-- Go standard library `path.Base`: the last element of `path`. -/
def Base (path : GoString) : GoString :=
  if path = [] then
    [46]
  else
    -- Strip trailing slashes.
    let path := path.rdropWhile (fun c => c == 47)
    -- Find the last element.
    let path :=
      match lastSlash path with
      | some i => path.drop (i + 1)
      | none => path
    -- If empty now, it had only slashes.
    if path = [] then [47] else path

end path

/-- The slice expression `s[:hi]` of a string; out of range (`none`) when `hi > len(s)`. -/
def sliceTo (s : GoString) (hi : Nat) : Option GoString :=
  if hi ≤ s.length then some (s.take hi) else none

/-- The slice expression `s[lo:]` of a string; out of range (`none`) when `lo > len(s)`. -/
def sliceFrom (s : GoString) (lo : Nat) : Option GoString :=
  if lo ≤ s.length then some (s.drop lo) else none

/-- The expression `strings.ToUpper(path.Base(sourceDir))[:1] + path.Base(sourceDir)[1:]`
of `main`; `none` when a slice expression is out of range. The standard
library function `strings.ToUpper` is the parameter `ToUpper`. -/
def derivedInterfaceName (ToUpper : GoString → GoString) (sourceDir : GoString) :
    Option GoString :=
  match sliceTo (ToUpper (path.Base sourceDir)) 1 with
  | none => none
  | some head =>
    match sliceFrom (path.Base sourceDir) 1 with
    | none => none
    | some tail => some (head ++ tail)

/-- The ASCII case of `strings.ToUpper`: `a`..`z` become `A`..`Z`. -/
def asciiToUpper (s : GoString) : GoString :=
  s.map (fun c => if 97 ≤ c ∧ c ≤ 122 then c - 32 else c)

/-- What the process does to the outside world. -/
inductive Effect where
  | Printf (format : String) (args : List GoString)
  | Println (text : GoString)
  | MkdirAll (dir : GoString)
  | Create (name : GoString)
  | WriteString (name : GoString) (text : GoString)
deriving DecidableEq, Repr

/-- A computation of the process: it yields a value, or the process has ended
through `os.Exit`, or it has panicked; in each case with the effects so far. -/
inductive Proc (α : Type) where
  | done (value : α) (effects : List Effect)
  | exited (code : Nat) (effects : List Effect)
  | panicked (effects : List Effect)

/-- The computation with the effects `pre` before its own. -/
def Proc.after {α : Type} (pre : List Effect) : Proc α → Proc α
  | .done v e => .done v (pre ++ e)
  | .exited c e => .exited c (pre ++ e)
  | .panicked e => .panicked (pre ++ e)

/-- Sequencing: nothing runs after an exit or a panic. -/
def Proc.bind {α β : Type} (p : Proc α) (f : α → Proc β) : Proc β :=
  match p with
  | .done v e => (f v).after e
  | .exited c e => .exited c e
  | .panicked e => .panicked e

instance : Monad Proc where
  pure v := .done v []
  bind := Proc.bind

/-- One effect. -/
def emit (e : Effect) : Proc Unit := .done () [e]

/-- The fields of `arguments.ParsedArguments` that `main` reads. -/
structure ParsedArguments where
  GeneratingInterface : Bool
  SourcePackageDir : GoString
  OutputPath : GoString
  DestinationPackageName : GoString
  InterfaceName : GoString
  FakeImplName : GoString
  PrintToStdOut : Bool

/-- The collaborators of `main`: the other packages of the repository and the
standard library, each given by what it returns. `Functions` and `Iface` are
the model types of the `locator` package. A Go result pair `(value, err)` is a
pair whose second component is the error. -/
structure World (Functions Iface : Type) where
  Args : List GoString
  ParseArguments : List GoString → Proc ParsedArguments
  GetFunctionsFromDirectory : GoString → GoString → Functions × GoError
  GenerateInterface : Functions → GoString → GoString → GoString → GoString × GoError
  GetInterfaceFromFilePath : GoString → GoString → Option Iface × GoError
  GenerateFake : Iface → GoString → GoString → GoString × GoError
  ToUpper : GoString → GoString
  Join : GoString → GoString → GoString
  Source : GoString → GoString × GoError
  Dir : GoString → GoString
  Create : GoString → GoError
  WriteString : GoString → GoString → GoError
  Getwd : GoString × GoError
  Rel : GoString → GoString → GoString × GoError

/-- The bytes of a string constant of the source. -/
def goBytes (s : String) : GoString :=
  s.toUTF8.toList.map UInt8.toNat

/-- The constant `usage`. -/
def usage : String :=
  "\nUSAGE\n\tcounterfeiter\n\t\t[-o <output-path>] [--fake-name <fake-name>]\n\t\t<source-path> <interface-name> [-]\n\nARGUMENTS\n\tsource-path\n\t\tPath to the file or directory containing the interface to fake\n\n\tinterface-name\n\t\tName of the interface to fake\n\n\t'-' argument\n\t\tWrite code to standard out instead of to a file\n\nOPTIONS\n\t-o\n\t\tPath to the file or directory for the generated fakes.\n\t\tThis also determines the package name that will be used.\n\t\tBy default, the generated fakes will be generated in\n\t\tthe package \"xyzfakes\" which is nested in package \"xyz\",\n\t\twhere \"xyz\" is the name of referenced package.\n\n\texample:\n\t\t# writes \"FakeMyInterface\" to ./fakes/fake_my_interface.go\n\t\tcounterfeiter -o ./fakes MyInterface ./mypackage\n\n\t--fake-name\n\t\tName of the fake struct to generate. By default, 'Fake' will\n\t\tbe prepended to the name of the original interface.\n\n\texample:\n\t\t# writes \"CoolThing\" to ./fakes/cool_thing.go\n\t\tcounterfeiter --fake-name CoolThing MyInterface ./mypackage\n"

/-- The function `fail`: print the message, then `os.Exit(1)`. -/
def fail (s : String) (args : List GoString) : Proc Unit :=
  .exited 1 [Effect.Printf (s ++ "\n") args]

/-- The statement `if err != nil { fail(format, err) }`. -/
def failOn (err : GoError) (format : String) : Proc Unit :=
  match err with
  | some msg => fail format [msg]
  | none => pure ()

/-- A value computed by an expression that may panic. -/
def orPanic {α : Type} : Option α → Proc α
  | some v => .done v []
  | none => .panicked []

/-- The function `cwd`. -/
def cwd {Functions Iface : Type} (w : World Functions Iface) : Proc GoString := do
  let r := w.Getwd
  match r.2 with
  | some _ => fail "Error - couldn't determine current working directory" []
  | none => pure ()
  return r.1

/-- The function `printCode`. -/
def printCode {Functions Iface : Type} (w : World Functions Iface)
    (code outputPath : GoString) (printToStdOut : Bool) : Proc Unit := do
  let r := w.Source code
  failOn r.2 "%v"
  let code := r.1
  if printToStdOut then
    emit (Effect.Println code)
  else
    emit (Effect.MkdirAll (w.Dir outputPath))
    emit (Effect.Create outputPath)
    failOn (w.Create outputPath) "Couldn't create fake file - %v"
    emit (Effect.WriteString outputPath code)
    failOn (w.WriteString outputPath code) "Couldn't write to fake file - %v"

/-- The function `reportDone`. -/
def reportDone {Functions Iface : Type} (w : World Functions Iface)
    (outputPath fakeName : GoString) : Proc Unit := do
  let dir ← cwd w
  let r := w.Rel dir outputPath
  failOn r.2 "%v"
  emit (Effect.Printf "Wrote `%s` to `%s`\n" [fakeName, r.1])

/-- The function `main`. -/
def main {Functions Iface : Type} (w : World Functions Iface) : Proc Unit := do
  let args := w.Args
  if args.length < 1 then
    fail "%s" [goBytes usage]
  let parsedArgs ← w.ParseArguments args
  let interfaceName := parsedArgs.InterfaceName
  let mut fakeName := parsedArgs.FakeImplName
  let sourceDir := parsedArgs.SourcePackageDir
  let mut outputPath := parsedArgs.OutputPath
  let destinationPackage := parsedArgs.DestinationPackageName
  let mut code : GoString := []
  if parsedArgs.GeneratingInterface then
    let r := w.GetFunctionsFromDirectory (path.Base sourceDir) sourceDir
    failOn r.2 "%v"
    fakeName ← orPanic (derivedInterfaceName w.ToUpper sourceDir)
    let g := w.GenerateInterface r.1 sourceDir fakeName destinationPackage
    code := g.1
    failOn g.2 "%v"
    outputPath := w.Join outputPath (path.Base sourceDir ++ goBytes ".go")
  else
    let r := w.GetInterfaceFromFilePath interfaceName sourceDir
    failOn r.2 "%v"
    let iface ← orPanic r.1
    let g := w.GenerateFake iface fakeName destinationPackage
    code := g.1
    failOn g.2 "%v"
  printCode w code outputPath parsedArgs.PrintToStdOut
  reportDone w outputPath fakeName

/-- A world for the examples: one argument on the command line; the mode flag
and the four error results are given, every other collaborator succeeds. -/
def exampleWorld (generatingInterface : Bool) (e1 e2 e3 e4 : GoError) : World Unit Unit :=
  { Args := [[120]]
    ParseArguments := fun _ => .done
      { GeneratingInterface := generatingInterface
        SourcePackageDir := [112, 107, 103]
        OutputPath := [111, 117, 116]
        DestinationPackageName := [102]
        InterfaceName := [73]
        FakeImplName := [70]
        PrintToStdOut := false } []
    GetFunctionsFromDirectory := fun _ _ => ((), e1)
    GenerateInterface := fun _ _ _ _ => ([99], e2)
    GetInterfaceFromFilePath := fun _ _ => (some (), e3)
    GenerateFake := fun _ _ _ => ([99], e4)
    ToUpper := asciiToUpper
    Join := fun a b => a ++ [47] ++ b
    Source := fun c => (c, none)
    Dir := fun p => p
    Create := fun _ => none
    WriteString := fun _ _ => none
    Getwd := ([47], none)
    Rel := fun _ p => (p, none) }

/-! ## Stubs that act on the fake -/

/-- What a call of the closure held in a stub field does to the fake besides
computing its result: the memory as the closure leaves it, `none` when the
closure never returns. -/
structure StubEffects where
  stub1 : GoString → Nat → Memory → Option Memory
  stub2 : Memory → Option Memory

/-- Stubs that leave the fake as they find it. -/
def StubEffects.inert : StubEffects :=
  { stub1 := fun _ _ m => some m
    stub2 := fun m => some m }

/-- The method `Method1(arg1, arg2)`, the call `fake.Method1Stub(arg1, arg2)`
acting on the fake as `c.stub1` says. -/
def Acting.Method1 (grow : Nat → Nat) (c : StubEffects) (m : Memory) (arg1 : GoString)
    (arg2 : Nat) : Outcome GoError :=
  match m.fake.RWMutex.Lock with
  | none => .blocked []
  | some mu =>
    let m1 : Memory := { m with fake := { m.fake with RWMutex := mu } }
    let r := goAppend grow { Arg1 := [], Arg2 := 0 } m1.calls1 m1.fake.method1Calls
      { Arg1 := arg1, Arg2 := arg2 }
    let m2 : Memory := { m1 with calls1 := r.1, fake := { m1.fake with method1Calls := r.2 } }
    let trace := [Event.Lock, Event.write Slot.method1Calls m1.fake.RWMutex]
    match m2.fake.Method1Stub with
    | some stub =>
      match c.stub1 arg1 arg2 m2 with
      | none => .blocked (trace ++ [Event.stub 1 m2.fake.RWMutex])
      | some m3 => deferredUnlock (stub arg1 arg2) m3 (trace ++ [Event.stub 1 m2.fake.RWMutex])
    | none =>
      deferredUnlock m2.fake.method1Returns._error m2
        (trace ++ [Event.read Slot.method1Returns m2.fake.RWMutex])

/-- The method `Method2()`, the call `fake.Method2Stub()` acting on the fake as
`c.stub2` says. -/
def Acting.Method2 (grow : Nat → Nat) (c : StubEffects) (m : Memory) : Outcome Unit :=
  match m.fake.RWMutex.Lock with
  | none => .blocked []
  | some mu =>
    let m1 : Memory := { m with fake := { m.fake with RWMutex := mu } }
    let r := goAppend grow () m1.calls2 m1.fake.method2Calls ()
    let m2 : Memory := { m1 with calls2 := r.1, fake := { m1.fake with method2Calls := r.2 } }
    let trace := [Event.Lock, Event.write Slot.method2Calls m1.fake.RWMutex]
    match m2.fake.Method2Stub with
    | some stub =>
      let _ := stub ()
      match c.stub2 m2 with
      | none => .blocked (trace ++ [Event.stub 2 m2.fake.RWMutex])
      | some m3 => deferredUnlock () m3 (trace ++ [Event.stub 2 m2.fake.RWMutex])
    | none => deferredUnlock () m2 trace

/-- The memory `m1` differs from `m` at most in the `Method1` log, header and
backing arrays: `Method1Stub`, `method1Returns`, `Method2Stub`, `method2Calls`
with its arrays, and the mutex are the same. -/
def Memory.sameBut1 (m1 m : Memory) : Prop :=
  m1.fake.Method1Stub = m.fake.Method1Stub ∧
  m1.fake.method1Returns = m.fake.method1Returns ∧
  m1.fake.Method2Stub = m.fake.Method2Stub ∧
  m1.fake.method2Calls = m.fake.method2Calls ∧ m1.calls2 = m.calls2 ∧
  m1.fake.RWMutex = m.fake.RWMutex

/-- The memory `m1` differs from `m` at most in the `Method2` log, header and
backing arrays: `Method1Stub`, `method1Returns`, `Method2Stub`, `method1Calls`
with its arrays, and the mutex are the same. -/
def Memory.sameBut2 (m1 m : Memory) : Prop :=
  m1.fake.Method1Stub = m.fake.Method1Stub ∧
  m1.fake.method1Returns = m.fake.method1Returns ∧
  m1.fake.Method2Stub = m.fake.Method2Stub ∧
  m1.fake.method1Calls = m.fake.method1Calls ∧ m1.calls1 = m.calls1 ∧
  m1.fake.RWMutex = m.fake.RWMutex

/-- The memory `m1` differs from `m` at most in the slot `method1Returns`. -/
def Memory.sameButReturns (m1 m : Memory) : Prop :=
  m1.fake.Method1Stub = m.fake.Method1Stub ∧
  m1.fake.method1Calls = m.fake.method1Calls ∧ m1.calls1 = m.calls1 ∧
  m1.fake.Method2Stub = m.fake.Method2Stub ∧
  m1.fake.method2Calls = m.fake.method2Calls ∧ m1.calls2 = m.calls2 ∧
  m1.fake.RWMutex = m.fake.RWMutex

/-- The memory in which `Method1` calls its stub: mutex held, record appended. -/
def Memory.atStub1 (grow : Nat → Nat) (m : Memory) (arg1 : GoString) (arg2 : Nat) : Memory :=
  (m.withMutex heldExclusive).record1 grow arg1 arg2

/-- The memory in which `Method2` calls its stub: mutex held, record appended. -/
def Memory.atStub2 (grow : Nat → Nat) (m : Memory) : Memory :=
  (m.withMutex heldExclusive).record2 grow

/-- The memory with the writer of the mutex released. -/
def Memory.released (m : Memory) : Memory :=
  m.withMutex { m.fake.RWMutex with writer := false }

/-- Stubs that work once: the closure of `Method1Stub` does
`fake.Method1Stub = nil`, the closure of `Method2Stub` does `fake.Method2Stub = nil`. -/
def oneShot : StubEffects :=
  { stub1 := fun _ _ m => some { m with fake := { m.fake with Method1Stub := none } }
    stub2 := fun m => some { m with fake := { m.fake with Method2Stub := none } } }

/-! ## Slices: append and sharing -/

theorem backing_set_self {α : Type} (h : Arrays α) (s : Slice) (arr : List α)
    (hne : 0 < (s.backing h).length) : Slice.backing (h.set s.array arr) s = arr := by
  unfold Slice.backing at *
  have hlt : s.array < h.length := by
    by_contra hc
    have : h[s.array]? = none := List.getElem?_eq_none (by omega)
    simp [List.getD_eq_getElem?_getD, this] at hne
  simp [List.getD_eq_getElem?_getD, List.getElem?_set, hlt]

theorem backing_set_other {α : Type} (h : Arrays α) (s t : Slice) (arr : List α)
    (hne : t.array ≠ s.array) : Slice.backing (h.set s.array arr) t = t.backing h := by
  unfold Slice.backing
  simp [List.getD_eq_getElem?_getD, List.getElem?_set, Ne.symm hne]

theorem take_set_ge {α : Type} (l : List α) (n k : Nat) (a : α) (h : n ≤ k) :
    (l.set k a).take n = l.take n := by
  rw [List.set_take]
  apply List.set_eq_of_length_le
  simp [List.length_take]; omega

theorem goAppend_elems {α : Type} (grow : Nat → Nat) (z : α) (h : Arrays α) (s : Slice) (x : α)
    (hwf : s.WF h) :
    (goAppend grow z h s x).2.elems (goAppend grow z h s x).1 = s.elems h ++ [x] := by
  obtain ⟨h1, h2⟩ := hwf
  unfold goAppend
  split
  · rename_i hlt
    have hpos : 0 < (s.backing h).length := by omega
    have hb2 : Slice.backing (h.set s.array ((s.backing h).set s.len x))
        { s with len := s.len + 1 } = (s.backing h).set s.len x :=
      backing_set_self h s ((s.backing h).set s.len x) hpos
    have hl : s.len < (s.backing h).length := by omega
    simp only [Slice.elems, hb2]
    rw [List.take_succ, take_set_ge _ _ _ _ (Nat.le_refl _)]
    simp [List.getElem?_set, hl]
  · rename_i hge
    have hle : s.len ≤ (s.backing h).length := by omega
    have hlen : (List.take s.len (s.backing h)).length = s.len := by
      simp [List.length_take, hle]
    have hb : Slice.backing (h ++ [List.take s.len (s.backing h) ++
        x :: List.replicate (grow s.cap) z])
        { array := h.length, len := s.len + 1, cap := s.len + 1 + grow s.cap } =
        List.take s.len (s.backing h) ++ x :: List.replicate (grow s.cap) z := by
      simp [Slice.backing, List.getD_eq_getElem?_getD]
    simp only [Slice.elems, hb]
    rw [List.take_append_eq_append_take, hlen]
    simp [List.take_of_length_le, hlen]

theorem goAppend_WF {α : Type} (grow : Nat → Nat) (z : α) (h : Arrays α) (s : Slice) (x : α)
    (hwf : s.WF h) : (goAppend grow z h s x).2.WF (goAppend grow z h s x).1 := by
  obtain ⟨h1, h2⟩ := hwf
  unfold goAppend
  split
  · rename_i hlt
    have hpos : 0 < (s.backing h).length := by omega
    have hb2 : Slice.backing (h.set s.array ((s.backing h).set s.len x))
        { s with len := s.len + 1 } = (s.backing h).set s.len x :=
      backing_set_self h s ((s.backing h).set s.len x) hpos
    refine ⟨?_, ?_⟩
    · show s.len + 1 ≤ s.cap
      omega
    · rw [hb2, List.length_set]
      exact h2
  · rename_i hge
    have hle : s.len ≤ (s.backing h).length := by omega
    refine ⟨?_, ?_⟩
    · show s.len + 1 ≤ s.len + 1 + grow s.cap
      omega
    simp [Slice.backing, Slice.elems, List.getD_eq_getElem?_getD, List.length_take]
    have : s.len ≤ (h[s.array]?.getD []).length := by
      simpa [Slice.backing, List.getD_eq_getElem?_getD] using hle
    omega

theorem goAppend_snapshot {α : Type} (grow : Nat → Nat) (z : α) (h : Arrays α) (s t : Slice)
    (x : α) (hs : t.Snapshot h s) :
    t.elems (goAppend grow z h s x).1 = t.elems h ∧
      t.Snapshot (goAppend grow z h s x).1 (goAppend grow z h s x).2 := by
  obtain ⟨ht1, ht2⟩ := hs
  unfold goAppend
  split
  · rename_i hlt
    by_cases hshare : t.array = s.array
    · have hle := ht2 hshare
      have hbt : t.backing h = s.backing h := by simp [Slice.backing, hshare]
      by_cases hpos : 0 < (s.backing h).length
      · have hb : Slice.backing (h.set s.array ((s.backing h).set s.len x)) t =
            (s.backing h).set s.len x := by
          have := backing_set_self h s ((s.backing h).set s.len x) hpos
          simpa [Slice.backing, hshare] using this
        refine ⟨?_, ?_, ?_⟩
        · simp only [Slice.elems, hb, hbt]
          exact take_set_ge _ _ _ _ hle
        · rw [hb, List.length_set, ← hbt]
          exact ht1
        · intro _
          show t.len ≤ s.len + 1
          omega
      · have hzero : t.len = 0 := by rw [hbt] at ht1; omega
        refine ⟨?_, ?_, ?_⟩
        · simp [Slice.elems, hzero]
        · omega
        · intro _
          show t.len ≤ s.len + 1
          omega
    · have hb := backing_set_other h s t ((s.backing h).set s.len x) hshare
      refine ⟨?_, ?_, ?_⟩
      · simp only [Slice.elems, hb]
      · rw [hb]
        exact ht1
      · intro heq
        exact absurd heq hshare
  · rename_i hge
    by_cases hin : t.array < h.length
    · have hb : Slice.backing (h ++ [s.elems h ++ x :: List.replicate (grow s.cap) z]) t =
          t.backing h := by
        simp [Slice.backing, List.getD_eq_getElem?_getD, List.getElem?_append_left hin]
      refine ⟨?_, ?_, ?_⟩
      · show List.take t.len (Slice.backing (h ++ [s.elems h ++ x :: List.replicate (grow s.cap) z]) t) = _
        rw [hb]
        rfl
      · rw [hb]
        exact ht1
      · intro heq
        have : t.array = h.length := heq
        omega
    · have hnone : h[t.array]? = none := List.getElem?_eq_none (by omega)
      have hzero : t.len = 0 := by
        simp [Slice.backing, List.getD_eq_getElem?_getD, hnone] at ht1
        exact ht1
      refine ⟨?_, ?_, ?_⟩
      · simp [Slice.elems, hzero]
      · omega
      · intro _
        show t.len ≤ s.len + 1
        omega

theorem snapshot_self {α : Type} (h : Arrays α) (s : Slice) (hwf : s.WF h) : s.Snapshot h s :=
  ⟨Nat.le_trans hwf.1 hwf.2, fun _ => Nat.le_refl _⟩

/-! ## The methods on a fake whose mutex is free -/

theorem Method1_free (grow : Nat → Nat) (m : Memory) (arg1 : GoString) (arg2 : Nat)
    (hfree : m.fake.RWMutex = free) :
    Method1 grow m arg1 arg2 =
      match m.fake.Method1Stub with
      | some stub => .returned (stub arg1 arg2) (m.record1 grow arg1 arg2)
          [Event.Lock, Event.write Slot.method1Calls heldExclusive,
            Event.stub 1 heldExclusive, Event.Unlock]
      | none => .returned m.fake.method1Returns._error (m.record1 grow arg1 arg2)
          [Event.Lock, Event.write Slot.method1Calls heldExclusive,
            Event.read Slot.method1Returns heldExclusive, Event.Unlock] := by
  obtain ⟨⟨mu, st1, c1, r1, st2, c2⟩, a1, a2⟩ := m
  simp only at hfree
  subst hfree
  cases st1 <;>
    simp [Method1, sync.RWMutex.Lock, free, deferredUnlock, sync.RWMutex.Unlock,
      Memory.record1, heldExclusive]

theorem Method2_free (grow : Nat → Nat) (m : Memory) (hfree : m.fake.RWMutex = free) :
    Method2 grow m =
      match m.fake.Method2Stub with
      | some _ => .returned () (m.record2 grow)
          [Event.Lock, Event.write Slot.method2Calls heldExclusive,
            Event.stub 2 heldExclusive, Event.Unlock]
      | none => .returned () (m.record2 grow)
          [Event.Lock, Event.write Slot.method2Calls heldExclusive, Event.Unlock] := by
  obtain ⟨⟨mu, st1, c1, r1, st2, c2⟩, a1, a2⟩ := m
  simp only at hfree
  subst hfree
  cases st2 <;>
    simp [Method2, sync.RWMutex.Lock, free, deferredUnlock, sync.RWMutex.Unlock,
      Memory.record2, heldExclusive]

theorem Method1Calls_noWriter (m : Memory) (hw : m.fake.RWMutex.writer = false) :
    Method1Calls m = .returned m.fake.method1Calls m
      [Event.RLock,
        Event.read Slot.method1Calls
          { writer := false, readerCount := m.fake.RWMutex.readerCount + 1 },
        Event.RUnlock] := by
  obtain ⟨⟨⟨w, rc⟩, st1, c1, r1, st2, c2⟩, a1, a2⟩ := m
  simp only at hw
  subst hw
  simp [Method1Calls, sync.RWMutex.RLock, deferredRUnlock, sync.RWMutex.RUnlock]

theorem Method2Calls_noWriter (m : Memory) (hw : m.fake.RWMutex.writer = false) :
    Method2Calls m = .returned m.fake.method2Calls m
      [Event.RLock,
        Event.read Slot.method2Calls
          { writer := false, readerCount := m.fake.RWMutex.readerCount + 1 },
        Event.RUnlock] := by
  obtain ⟨⟨⟨w, rc⟩, st1, c1, r1, st2, c2⟩, a1, a2⟩ := m
  simp only at hw
  subst hw
  simp [Method2Calls, sync.RWMutex.RLock, deferredRUnlock, sync.RWMutex.RUnlock]

theorem record1_WF (grow : Nat → Nat) (m : Memory) (arg1 : GoString) (arg2 : Nat)
    (hwf : m.WF) : (m.record1 grow arg1 arg2).WF :=
  ⟨hwf.1, goAppend_WF grow _ m.calls1 m.fake.method1Calls _ hwf.2.1, hwf.2.2⟩

theorem record2_WF (grow : Nat → Nat) (m : Memory) (hwf : m.WF) : (m.record2 grow).WF :=
  ⟨hwf.1, hwf.2.1, goAppend_WF grow _ m.calls2 m.fake.method2Calls _ hwf.2.2⟩

/-! ## Sequences of operations -/

theorem apply_WF (grow : Nat → Nat) (m : Memory) (op : Op) (hwf : m.WF) :
    op.apply grow m = some (op.after grow m) ∧ (op.after grow m).WF := by
  have hfree : m.fake.RWMutex = free := hwf.1
  have hw : m.fake.RWMutex.writer = false := by rw [hfree]; rfl
  cases op with
  | Method1 a b =>
    refine ⟨?_, record1_WF grow m a b hwf⟩
    simp only [Op.apply, Op.after, Method1_free grow m a b hfree]
    cases m.fake.Method1Stub <;> rfl
  | Method1Calls =>
    refine ⟨?_, hwf⟩
    simp only [Op.apply, Op.after, Method1Calls_noWriter m hw, Outcome.memory]
  | Method1Returns e => exact ⟨rfl, hwf⟩
  | Method2 =>
    refine ⟨?_, record2_WF grow m hwf⟩
    simp only [Op.apply, Op.after, Method2_free grow m hfree]
    cases m.fake.Method2Stub <;> rfl
  | Method2Calls =>
    refine ⟨?_, hwf⟩
    simp only [Op.apply, Op.after, Method2Calls_noWriter m hw, Outcome.memory]
  | setMethod1Stub s => exact ⟨rfl, hwf⟩
  | setMethod2Stub s => exact ⟨rfl, hwf⟩

theorem after_log1 (grow : Nat → Nat) (m : Memory) (op : Op) (hwf : m.WF) :
    (op.after grow m).fake.method1Calls.elems (op.after grow m).calls1 =
      m.fake.method1Calls.elems m.calls1 ++ logged1 [op] := by
  cases op with
  | Method1 a b => exact goAppend_elems grow _ m.calls1 m.fake.method1Calls _ hwf.2.1
  | _ => simp [Op.after, logged1, Memory.record2]

theorem after_log2 (grow : Nat → Nat) (m : Memory) (op : Op) (hwf : m.WF) :
    (op.after grow m).fake.method2Calls.elems (op.after grow m).calls2 =
      m.fake.method2Calls.elems m.calls2 ++ List.replicate (count2 [op]) () := by
  cases op with
  | Method2 => exact goAppend_elems grow _ m.calls2 m.fake.method2Calls _ hwf.2.2
  | _ => simp [Op.after, count2, Memory.record1]

theorem logged1_cons (op : Op) (ops : List Op) :
    logged1 (op :: ops) = logged1 [op] ++ logged1 ops := by
  cases op <;> simp [logged1]

theorem count2_cons (op : Op) (ops : List Op) :
    count2 (op :: ops) = count2 [op] + count2 ops := by
  cases op <;> simp [count2]; omega

theorem runOps_logs (grow : Nat → Nat) (ops : List Op) :
    ∀ m : Memory, m.WF → ∃ m1 : Memory, runOps grow ops m = some m1 ∧ m1.WF ∧
      m1.fake.method1Calls.elems m1.calls1 = m.fake.method1Calls.elems m.calls1 ++ logged1 ops ∧
      m1.fake.method2Calls.elems m1.calls2 =
        m.fake.method2Calls.elems m.calls2 ++ List.replicate (count2 ops) () := by
  induction ops with
  | nil =>
    intro m hwf
    exact ⟨m, rfl, hwf, by simp [logged1], by simp [count2]⟩
  | cons op ops ih =>
    intro m hwf
    obtain ⟨happ, hwf1⟩ := apply_WF grow m op hwf
    obtain ⟨m1, hrun, hwf2, h1, h2⟩ := ih (op.after grow m) hwf1
    refine ⟨m1, ?_, hwf2, ?_, ?_⟩
    · simp only [runOps, happ]
      exact hrun
    · rw [h1, after_log1 grow m op hwf, logged1_cons op ops, List.append_assoc]
    · rw [h2, after_log2 grow m op hwf, count2_cons op ops, List.append_assoc,
        List.replicate_add]

theorem logged1_invocations1 (args : List (GoString × Nat)) :
    logged1 (invocations1 args) = args.map (fun p => { Arg1 := p.1, Arg2 := p.2 }) := by
  induction args with
  | nil => rfl
  | cons p args ih =>
    simp only [invocations1, List.map_cons, logged1] at ih ⊢
    rw [ih]

theorem count2_invocations2 (n : Nat) : count2 (invocations2 n) = n := by
  induction n with
  | zero => rfl
  | succ n ih =>
    simp only [invocations2, List.replicate_succ, count2] at ih ⊢
    rw [ih]

theorem elems_len_zero {α : Type} (h : Arrays α) (s : Slice) (hz : s.len = 0) :
    s.elems h = [] := by
  simp [Slice.elems, hz]

theorem elems_length {α : Type} (h : Arrays α) (s : Slice) (hwf : s.WF h) :
    (s.elems h).length = s.len := by
  have := Nat.le_trans hwf.1 hwf.2
  simp [Slice.elems, List.length_take, this]

theorem NewFakeSomeInterface_WF : NewFakeSomeInterface.WF := by
  refine ⟨rfl, ?_, ?_⟩ <;> exact ⟨Nat.le_refl _, Nat.zero_le _⟩

theorem stubbedFake_WF : stubbedFake.WF := by
  refine ⟨rfl, ?_, ?_⟩ <;> exact ⟨Nat.le_refl _, Nat.zero_le _⟩

/-! ## Call recording -/

/-- C1. On a fake whose mutex is free and whose `Method1` log is empty, the
invocations `Method1(a_1, b_1) ... Method1(a_N, b_N)` all return, whatever
`Method1Stub` holds, and `Method1Calls()` then returns a slice of length `N`
whose `i`-th entry is the record with `Arg1 = a_i` and `Arg2 = b_i`. -/
theorem Method1Calls_after_invocations (grow : Nat → Nat) (m : Memory)
    (args : List (GoString × Nat)) (hwf : m.WF) (hempty : m.fake.method1Calls.len = 0) :
    ∃ (m1 : Memory) (log : Slice) (tr : List Event),
      runOps grow (invocations1 args) m = some m1 ∧
      Method1Calls m1 = Outcome.returned log m1 tr ∧
      log.len = args.length ∧
      log.elems m1.calls1 = args.map (fun p => { Arg1 := p.1, Arg2 := p.2 }) ∧
      ∀ (i : Nat) (a : GoString) (b : Nat), args[i]? = some (a, b) →
        (log.elems m1.calls1)[i]? = some { Arg1 := a, Arg2 := b } := by
  obtain ⟨m1, hrun, hwf1, h1, _⟩ := runOps_logs grow (invocations1 args) m hwf
  have hw : m1.fake.RWMutex.writer = false := by rw [hwf1.1]
  have helems : m1.fake.method1Calls.elems m1.calls1 =
      args.map (fun p => { Arg1 := p.1, Arg2 := p.2 }) := by
    rw [h1, elems_len_zero _ _ hempty, logged1_invocations1, List.nil_append]
  refine ⟨m1, m1.fake.method1Calls, _, hrun, Method1Calls_noWriter m1 hw, ?_, helems, ?_⟩
  · rw [← elems_length m1.calls1 m1.fake.method1Calls hwf1.2.1, helems, List.length_map]
  · intro i a b hi
    rw [helems, List.getElem?_map, hi]
    rfl

/-- C1, at a stubbed fake and the calls `Method1("a", 1)`, `Method1("b", 2)`. -/
theorem Method1Calls_after_invocations_witness :
    stubbedFake.WF ∧ stubbedFake.fake.method1Calls.len = 0 ∧
    ∃ (m1 : Memory) (log : Slice) (tr : List Event),
      runOps doubling (invocations1 [([97], 1), ([98], 2)]) stubbedFake = some m1 ∧
      Method1Calls m1 = Outcome.returned log m1 tr ∧
      log.len = [(([97] : GoString), 1), ([98], 2)].length ∧
      log.elems m1.calls1 =
        [(([97] : GoString), 1), ([98], 2)].map (fun p => { Arg1 := p.1, Arg2 := p.2 }) ∧
      ∀ (i : Nat) (a : GoString) (b : Nat),
        [(([97] : GoString), 1), ([98], 2)][i]? = some (a, b) →
        (log.elems m1.calls1)[i]? = some { Arg1 := a, Arg2 := b } :=
  ⟨stubbedFake_WF, rfl,
    Method1Calls_after_invocations doubling stubbedFake [([97], 1), ([98], 2)]
      stubbedFake_WF rfl⟩

/-- C6. On a fake whose mutex is free and whose `Method2` log is empty, `N`
invocations of `Method2()` all return, whatever `Method2Stub` holds, and
`Method2Calls()` then returns a slice of length `N` whose entries are all the
empty call record. -/
theorem Method2Calls_after_invocations (grow : Nat → Nat) (m : Memory) (n : Nat)
    (hwf : m.WF) (hempty : m.fake.method2Calls.len = 0) :
    ∃ (m1 : Memory) (log : Slice) (tr : List Event),
      runOps grow (invocations2 n) m = some m1 ∧
      Method2Calls m1 = Outcome.returned log m1 tr ∧
      log.len = n ∧
      log.elems m1.calls2 = List.replicate n () := by
  obtain ⟨m1, hrun, hwf1, _, h2⟩ := runOps_logs grow (invocations2 n) m hwf
  have hw : m1.fake.RWMutex.writer = false := by rw [hwf1.1]
  have helems : m1.fake.method2Calls.elems m1.calls2 = List.replicate n () := by
    rw [h2, elems_len_zero _ _ hempty, count2_invocations2, List.nil_append]
  refine ⟨m1, m1.fake.method2Calls, _, hrun, Method2Calls_noWriter m1 hw, ?_, helems⟩
  rw [← elems_length m1.calls2 m1.fake.method2Calls hwf1.2.2, helems, List.length_replicate]

/-- C6, at a stubbed fake and three invocations of `Method2()`. -/
theorem Method2Calls_after_invocations_witness :
    stubbedFake.WF ∧ stubbedFake.fake.method2Calls.len = 0 ∧
    ∃ (m1 : Memory) (log : Slice) (tr : List Event),
      runOps doubling (invocations2 3) stubbedFake = some m1 ∧
      Method2Calls m1 = Outcome.returned log m1 tr ∧
      log.len = 3 ∧
      log.elems m1.calls2 = List.replicate 3 () :=
  ⟨stubbedFake_WF, rfl,
    Method2Calls_after_invocations doubling stubbedFake 3 stubbedFake_WF rfl⟩

/-! ## The methods on a fake whose mutex is held -/

theorem Method1_busy (grow : Nat → Nat) (m : Memory) (arg1 : GoString) (arg2 : Nat)
    (hbusy : m.fake.RWMutex ≠ free) : Method1 grow m arg1 arg2 = .blocked [] := by
  obtain ⟨⟨⟨w, rc⟩, st1, c1, r1, st2, c2⟩, a1, a2⟩ := m
  have hne : ¬ (w = false ∧ rc = 0) := by
    rintro ⟨rfl, rfl⟩
    exact hbusy rfl
  simp [Method1, sync.RWMutex.Lock, hne]

theorem Method2_busy (grow : Nat → Nat) (m : Memory)
    (hbusy : m.fake.RWMutex ≠ free) : Method2 grow m = .blocked [] := by
  obtain ⟨⟨⟨w, rc⟩, st1, c1, r1, st2, c2⟩, a1, a2⟩ := m
  have hne : ¬ (w = false ∧ rc = 0) := by
    rintro ⟨rfl, rfl⟩
    exact hbusy rfl
  simp [Method2, sync.RWMutex.Lock, hne]

theorem Method1Calls_writer (m : Memory) (hw : m.fake.RWMutex.writer = true) :
    Method1Calls m = .blocked [] := by
  simp [Method1Calls, sync.RWMutex.RLock, hw]

theorem Method2Calls_writer (m : Memory) (hw : m.fake.RWMutex.writer = true) :
    Method2Calls m = .blocked [] := by
  simp [Method2Calls, sync.RWMutex.RLock, hw]

/-! ## Stub precedence -/

theorem after_returns (grow : Nat → Nat) (m : Memory) (op : Op)
    (hop : op.isReturnsSetter = false) :
    (op.after grow m).fake.method1Returns = m.fake.method1Returns := by
  cases op <;> first | rfl | exact Bool.noConfusion hop

theorem runOps_returns (grow : Nat → Nat) (ops : List Op) :
    ∀ m : Memory, m.WF → (∀ op ∈ ops, op.isReturnsSetter = false) →
      ∃ m1 : Memory, runOps grow ops m = some m1 ∧ m1.WF ∧
        m1.fake.method1Returns = m.fake.method1Returns := by
  induction ops with
  | nil =>
    intro m hwf _
    exact ⟨m, rfl, hwf, rfl⟩
  | cons op ops ih =>
    intro m hwf hops
    obtain ⟨happ, hwf1⟩ := apply_WF grow m op hwf
    obtain ⟨m1, hrun, hwf2, h1⟩ :=
      ih (op.after grow m) hwf1 (fun o ho => hops o (List.mem_cons_of_mem _ ho))
    refine ⟨m1, ?_, hwf2, ?_⟩
    · simp only [runOps, happ]
      exact hrun
    · rw [h1, after_returns grow m op (hops op (List.mem_cons_self _ _))]

/-- C2. On a fake whose mutex is free: when `Method1Stub` is set, `Method1(a, b)`
returns `Method1Stub(a, b)` whatever the canned-return slot holds; and after
`Method1Returns(e)`, followed by any operations other than `Method1Returns`,
`Method1(a, b)` returns `e` when `Method1Stub` is unset. -/
theorem Method1_stub_precedence (grow : Nat → Nat) (m : Memory) (a : GoString) (b : Nat)
    (hwf : m.WF) :
    (∀ stub, m.fake.Method1Stub = some stub → ∀ canned : Method1ReturnsRecord,
      (Method1 grow { m with fake := { m.fake with method1Returns := canned } } a b).value =
        some (stub a b)) ∧
    (∀ (e : GoError) (ops : List Op), (∀ op ∈ ops, op.isReturnsSetter = false) →
      ∃ m0 m1 : Memory, (Method1Returns m e).memory = some m0 ∧
        runOps grow ops m0 = some m1 ∧
        (m1.fake.Method1Stub = none → (Method1 grow m1 a b).value = some e)) := by
  constructor
  · intro stub hstub canned
    have hfree : ({ m with fake := { m.fake with method1Returns := canned } } :
        Memory).fake.RWMutex = free := hwf.1
    rw [Method1_free grow _ a b hfree]
    simp only [hstub]
    rfl
  · intro e ops hops
    have hwf0 : ({ m with fake := { m.fake with method1Returns := { _error := e } } } :
        Memory).WF := hwf
    obtain ⟨m1, hrun, hwf1, hret⟩ := runOps_returns grow ops _ hwf0 hops
    refine ⟨_, m1, rfl, hrun, ?_⟩
    intro hnone
    rw [Method1_free grow m1 a b hwf1.1]
    simp only [hnone, hret]
    rfl

/-- C2, at a stubbed fake (stub result `"e"`) and, for the canned return, at the
operations `Method2()`, `Method1Calls()`, clear the stub. -/
theorem Method1_stub_precedence_witness :
    stubbedFake.WF ∧
    (Method1 doubling
      { stubbedFake with fake := { stubbedFake.fake with method1Returns := { _error := some [120] } } }
      [97] 1).value = some (some [101]) ∧
    ∃ m0 m1 : Memory, (Method1Returns stubbedFake (some [120])).memory = some m0 ∧
      runOps doubling [Op.Method2, Op.Method1Calls, Op.setMethod1Stub none] m0 = some m1 ∧
      (m1.fake.Method1Stub = none → (Method1 doubling m1 [97] 1).value = some (some [120])) :=
  ⟨stubbedFake_WF,
    (Method1_stub_precedence doubling stubbedFake [97] 1 stubbedFake_WF).1
      (fun _ _ => some [101]) rfl { _error := some [120] },
    (Method1_stub_precedence doubling stubbedFake [97] 1 stubbedFake_WF).2 (some [120])
      [Op.Method2, Op.Method1Calls, Op.setMethod1Stub none] (by decide)⟩

/-! ## Frame: each operation changes its own slot only -/

theorem Acting_Method1_inert (grow : Nat → Nat) (m : Memory) (a : GoString) (b : Nat) :
    Acting.Method1 grow StubEffects.inert m a b = Method1 grow m a b := by
  unfold Acting.Method1 Method1
  cases m.fake.RWMutex.Lock with
  | none => rfl
  | some mu =>
    simp only
    cases m.fake.Method1Stub <;> rfl

theorem Acting_Method2_inert (grow : Nat → Nat) (m : Memory) :
    Acting.Method2 grow StubEffects.inert m = Method2 grow m := by
  unfold Acting.Method2 Method2
  cases m.fake.RWMutex.Lock with
  | none => rfl
  | some mu =>
    simp only
    cases m.fake.Method2Stub <;> rfl

theorem Acting_Method1_busy (grow : Nat → Nat) (c : StubEffects) (m : Memory) (a : GoString)
    (b : Nat) (hbusy : m.fake.RWMutex ≠ free) : Acting.Method1 grow c m a b = .blocked [] := by
  obtain ⟨⟨⟨w, rc⟩, st1, c1, r1, st2, c2⟩, a1, a2⟩ := m
  have hne : ¬ (w = false ∧ rc = 0) := by
    rintro ⟨rfl, rfl⟩
    exact hbusy rfl
  simp [Acting.Method1, sync.RWMutex.Lock, hne]

theorem Acting_Method2_busy (grow : Nat → Nat) (c : StubEffects) (m : Memory)
    (hbusy : m.fake.RWMutex ≠ free) : Acting.Method2 grow c m = .blocked [] := by
  obtain ⟨⟨⟨w, rc⟩, st1, c1, r1, st2, c2⟩, a1, a2⟩ := m
  have hne : ¬ (w = false ∧ rc = 0) := by
    rintro ⟨rfl, rfl⟩
    exact hbusy rfl
  simp [Acting.Method2, sync.RWMutex.Lock, hne]

theorem Acting_Method1_free (grow : Nat → Nat) (c : StubEffects) (m : Memory) (a : GoString)
    (b : Nat) (hfree : m.fake.RWMutex = free) :
    Acting.Method1 grow c m a b =
      match m.fake.Method1Stub with
      | some stub =>
        match c.stub1 a b (m.atStub1 grow a b) with
        | none => .blocked [Event.Lock, Event.write Slot.method1Calls heldExclusive,
            Event.stub 1 heldExclusive]
        | some m3 => deferredUnlock (stub a b) m3
            [Event.Lock, Event.write Slot.method1Calls heldExclusive, Event.stub 1 heldExclusive]
      | none => .returned m.fake.method1Returns._error (m.record1 grow a b)
          [Event.Lock, Event.write Slot.method1Calls heldExclusive,
            Event.read Slot.method1Returns heldExclusive, Event.Unlock] := by
  obtain ⟨⟨mu, st1, c1, r1, st2, c2⟩, a1, a2⟩ := m
  simp only at hfree
  subst hfree
  cases st1 with
  | none =>
    simp [Acting.Method1, sync.RWMutex.Lock, free, deferredUnlock, sync.RWMutex.Unlock,
      Memory.record1, heldExclusive]
  | some stub =>
    simp only [Acting.Method1, sync.RWMutex.Lock, free, Memory.atStub1, Memory.record1,
      Memory.withMutex, heldExclusive]
    simp

theorem Acting_Method2_free (grow : Nat → Nat) (c : StubEffects) (m : Memory)
    (hfree : m.fake.RWMutex = free) :
    Acting.Method2 grow c m =
      match m.fake.Method2Stub with
      | some _ =>
        match c.stub2 (m.atStub2 grow) with
        | none => .blocked [Event.Lock, Event.write Slot.method2Calls heldExclusive,
            Event.stub 2 heldExclusive]
        | some m3 => deferredUnlock () m3
            [Event.Lock, Event.write Slot.method2Calls heldExclusive, Event.stub 2 heldExclusive]
      | none => .returned () (m.record2 grow)
          [Event.Lock, Event.write Slot.method2Calls heldExclusive, Event.Unlock] := by
  obtain ⟨⟨mu, st1, c1, r1, st2, c2⟩, a1, a2⟩ := m
  simp only at hfree
  subst hfree
  cases st2 with
  | none =>
    simp [Acting.Method2, sync.RWMutex.Lock, free, deferredUnlock, sync.RWMutex.Unlock,
      Memory.record2, heldExclusive]
  | some stub =>
    simp only [Acting.Method2, sync.RWMutex.Lock, free, Memory.atStub2, Memory.record2,
      Memory.withMutex, heldExclusive]
    simp

theorem deferredUnlock_returned {α : Type} (v r : α) (m3 m1 : Memory) (tr0 tr : List Event)
    (h : deferredUnlock v m3 tr0 = .returned r m1 tr) :
    m3.fake.RWMutex.writer = true ∧ r = v ∧ m1 = m3.released := by
  unfold deferredUnlock sync.RWMutex.Unlock at h
  by_cases hw : m3.fake.RWMutex.writer = true
  · simp only [hw, if_true] at h
    cases h
    exact ⟨hw, rfl, rfl⟩
  · simp only [hw] at h
    cases h

theorem released_atStub1 (grow : Nat → Nat) (m : Memory) (a : GoString) (b : Nat)
    (hfree : m.fake.RWMutex = free) : (m.atStub1 grow a b).released.sameBut1 m := by
  refine ⟨rfl, rfl, rfl, rfl, rfl, ?_⟩
  rw [hfree]
  rfl

theorem released_atStub2 (grow : Nat → Nat) (m : Memory)
    (hfree : m.fake.RWMutex = free) : (m.atStub2 grow).released.sameBut2 m := by
  refine ⟨rfl, rfl, rfl, rfl, rfl, ?_⟩
  rw [hfree]
  rfl

/-- C10 as stated fails: on the stubbed fake, with stubs that work once (the
closure assigns `nil` to its own stub field), `Method1("a", 1)` returns the
stub's result and leaves `Method1Stub` unset, and `Method2()` leaves
`Method2Stub` unset; both fields were set before the call. -/
theorem one_shot_stub_clears_stub_slot :
    stubbedFake.fake.Method1Stub.isSome = true ∧
    (Acting.Method1 doubling oneShot stubbedFake [97] 1).value = some (some [101]) ∧
    (Acting.Method1 doubling oneShot stubbedFake [97] 1).memory.map
      (fun m => m.fake.Method1Stub.isSome) = some false ∧
    stubbedFake.fake.Method2Stub.isSome = true ∧
    (Acting.Method2 doubling oneShot stubbedFake).value = some () ∧
    (Acting.Method2 doubling oneShot stubbedFake).memory.map
      (fun m => m.fake.Method2Stub.isSome) = some false :=
  ⟨rfl, rfl, rfl, rfl, rfl, rfl⟩

/-- C10, amended. Whenever `Method1` returns: with `Method1Stub` unset it has
changed nothing but `method1Calls`; with the stub set it leaves the fake as the
stub call left it, the mutex released, the stub having been called on the
fake changed in nothing but `method1Calls` and the held mutex, so that a stub
that leaves the fake as it found it gives again a change of `method1Calls`
only. The same holds for `Method2` and `method2Calls`. `Method1Returns` always
returns and changes nothing but `method1Returns`; `Method1Calls` and
`Method2Calls` change no field. With the mutex free, `Method1` and `Method2`
return when the stub is unset or its call returns with the mutex still held. -/
theorem operations_change_own_slot_up_to_stub (grow : Nat → Nat) (c : StubEffects)
    (m : Memory) :
    (∀ (a : GoString) (b : Nat) (r : GoError) (m1 : Memory) (tr : List Event),
      Acting.Method1 grow c m a b = .returned r m1 tr →
        (m.fake.Method1Stub = none → m1.sameBut1 m) ∧
        (∀ stub, m.fake.Method1Stub = some stub →
          ∃ m3 : Memory, c.stub1 a b (m.atStub1 grow a b) = some m3 ∧ m1 = m3.released ∧
            (m3 = m.atStub1 grow a b → m1.sameBut1 m))) ∧
    (∀ (m1 : Memory) (tr : List Event),
      Acting.Method2 grow c m = .returned () m1 tr →
        (m.fake.Method2Stub = none → m1.sameBut2 m) ∧
        (∀ stub, m.fake.Method2Stub = some stub →
          ∃ m3 : Memory, c.stub2 (m.atStub2 grow) = some m3 ∧ m1 = m3.released ∧
            (m3 = m.atStub2 grow → m1.sameBut2 m))) ∧
    (∀ e : GoError, ∃ (m1 : Memory) (tr : List Event),
      Method1Returns m e = .returned () m1 tr ∧ m1.sameButReturns m) ∧
    (∀ (s : Slice) (m1 : Memory) (tr : List Event),
      Method1Calls m = .returned s m1 tr → m1 = m) ∧
    (∀ (s : Slice) (m1 : Memory) (tr : List Event),
      Method2Calls m = .returned s m1 tr → m1 = m) ∧
    (m.fake.RWMutex = free → ∀ (a : GoString) (b : Nat),
      ((m.fake.Method1Stub = none ∨
          ∃ m3 : Memory, c.stub1 a b (m.atStub1 grow a b) = some m3 ∧
            m3.fake.RWMutex.writer = true) →
        ∃ (r : GoError) (m1 : Memory) (tr : List Event),
          Acting.Method1 grow c m a b = .returned r m1 tr) ∧
      ((m.fake.Method2Stub = none ∨
          ∃ m3 : Memory, c.stub2 (m.atStub2 grow) = some m3 ∧
            m3.fake.RWMutex.writer = true) →
        ∃ (m1 : Memory) (tr : List Event),
          Acting.Method2 grow c m = .returned () m1 tr)) := by
  refine ⟨?_, ?_, ?_, ?_, ?_, ?_⟩
  · intro a b r m1 tr h
    by_cases hfree : m.fake.RWMutex = free
    · rw [Acting_Method1_free grow c m a b hfree] at h
      cases hs : m.fake.Method1Stub with
      | none =>
        rw [hs] at h
        cases h
        exact ⟨fun _ => ⟨hs.symm ▸ rfl, rfl, rfl, rfl, rfl, rfl⟩, fun stub hstub => by cases hstub⟩
      | some stub0 =>
        rw [hs] at h
        cases hc : c.stub1 a b (m.atStub1 grow a b) with
        | none =>
          rw [hc] at h
          cases h
        | some m3 =>
          rw [hc] at h
          obtain ⟨_, _, hm1⟩ := deferredUnlock_returned _ _ _ _ _ _ h
          refine ⟨fun hnone => (by cases hnone), fun stub _ => ⟨m3, rfl, hm1, ?_⟩⟩
          intro heq
          rw [hm1, heq]
          exact released_atStub1 grow m a b hfree
    · rw [Acting_Method1_busy grow c m a b hfree] at h
      cases h
  · intro m1 tr h
    by_cases hfree : m.fake.RWMutex = free
    · rw [Acting_Method2_free grow c m hfree] at h
      cases hs : m.fake.Method2Stub with
      | none =>
        rw [hs] at h
        cases h
        exact ⟨fun _ => ⟨rfl, rfl, hs.symm ▸ rfl, rfl, rfl, rfl⟩, fun stub hstub => by cases hstub⟩
      | some stub0 =>
        rw [hs] at h
        cases hc : c.stub2 (m.atStub2 grow) with
        | none =>
          rw [hc] at h
          cases h
        | some m3 =>
          rw [hc] at h
          obtain ⟨_, _, hm1⟩ := deferredUnlock_returned _ _ _ _ _ _ h
          refine ⟨fun hnone => (by cases hnone), fun stub _ => ⟨m3, rfl, hm1, ?_⟩⟩
          intro heq
          rw [hm1, heq]
          exact released_atStub2 grow m hfree
    · rw [Acting_Method2_busy grow c m hfree] at h
      cases h
  · intro e
    exact ⟨_, _, rfl, rfl, rfl, rfl, rfl, rfl, rfl, rfl⟩
  · intro s m1 tr h
    cases hw : m.fake.RWMutex.writer
    · rw [Method1Calls_noWriter m hw] at h
      cases h
      rfl
    · rw [Method1Calls_writer m hw] at h
      cases h
  · intro s m1 tr h
    cases hw : m.fake.RWMutex.writer
    · rw [Method2Calls_noWriter m hw] at h
      cases h
      rfl
    · rw [Method2Calls_writer m hw] at h
      cases h
  · intro hfree a b
    constructor
    · intro hcase
      rw [Acting_Method1_free grow c m a b hfree]
      cases hs : m.fake.Method1Stub with
      | none => exact ⟨_, _, _, rfl⟩
      | some stub0 =>
        rcases hcase with hnone | ⟨m3, hc, hw⟩
        · rw [hs] at hnone
          cases hnone
        · simp only [hc]
          exact ⟨_, _, _, by simp [deferredUnlock, sync.RWMutex.Unlock, hw]; exact ⟨rfl, rfl, rfl⟩⟩
    · intro hcase
      rw [Acting_Method2_free grow c m hfree]
      cases hs : m.fake.Method2Stub with
      | none => exact ⟨_, _, rfl⟩
      | some stub0 =>
        rcases hcase with hnone | ⟨m3, hc, hw⟩
        · rw [hs] at hnone
          cases hnone
        · simp only [hc]
          exact ⟨_, _, by simp [deferredUnlock, sync.RWMutex.Unlock, hw]; exact ⟨rfl, rfl⟩⟩

/-- C10 amended, at the stubbed fake with a stub that works once (the call
returns), with a stub that leaves the fake as it found it (nothing but
`method1Calls` changes), and at a fresh fake, whose stub is unset. -/
theorem operations_change_own_slot_up_to_stub_witness :
    stubbedFake.fake.RWMutex = free ∧
    (∃ (r : GoError) (m1 : Memory) (tr : List Event),
      Acting.Method1 doubling oneShot stubbedFake [97] 1 = .returned r m1 tr) ∧
    (∃ m3 : Memory,
      StubEffects.inert.stub1 [97] 1 (stubbedFake.atStub1 doubling [97] 1) = some m3 ∧
      (stubbedFake.atStub1 doubling [97] 1).released = m3.released ∧
      (m3 = stubbedFake.atStub1 doubling [97] 1 →
        (stubbedFake.atStub1 doubling [97] 1).released.sameBut1 stubbedFake)) ∧
    (NewFakeSomeInterface.record1 doubling [97] 1).sameBut1 NewFakeSomeInterface :=
  ⟨rfl,
    ((operations_change_own_slot_up_to_stub doubling oneShot stubbedFake).2.2.2.2.2 rfl
      [97] 1).1 (Or.inr ⟨_, rfl, rfl⟩),
    ((operations_change_own_slot_up_to_stub doubling StubEffects.inert stubbedFake).1
      [97] 1 (some [101]) ((stubbedFake.atStub1 doubling [97] 1).released)
      [Event.Lock, Event.write Slot.method1Calls heldExclusive,
        Event.stub 1 heldExclusive, Event.Unlock] rfl).2 _ rfl,
    ((operations_change_own_slot_up_to_stub doubling StubEffects.inert
      NewFakeSomeInterface).1 [97] 1 none (NewFakeSomeInterface.record1 doubling [97] 1)
      [Event.Lock, Event.write Slot.method1Calls heldExclusive,
        Event.read Slot.method1Returns heldExclusive, Event.Unlock] rfl).1 rfl⟩

/-! ## The mutex around a call -/

/-- C8. `Method1` and `Method2` called with the mutex free return, in the stub
branch and in the canned-return branch alike, having called `Lock` once and
`Unlock` once, `Unlock` last, and leave the mutex as it was; called with the
mutex held they wait at `Lock` and have acquired nothing. -/
theorem methods_release_the_lock (grow : Nat → Nat) (m : Memory) (a : GoString) (b : Nat) :
    (m.fake.RWMutex = free →
      (∃ (r : GoError) (m1 : Memory) (tr : List Event),
        Method1 grow m a b = .returned r m1 tr ∧
          tr.count Event.Lock = 1 ∧ tr.count Event.Unlock = 1 ∧
          tr.getLast? = some Event.Unlock ∧ m1.fake.RWMutex = m.fake.RWMutex) ∧
      (∃ (m1 : Memory) (tr : List Event),
        Method2 grow m = .returned () m1 tr ∧
          tr.count Event.Lock = 1 ∧ tr.count Event.Unlock = 1 ∧
          tr.getLast? = some Event.Unlock ∧ m1.fake.RWMutex = m.fake.RWMutex)) ∧
    (m.fake.RWMutex ≠ free →
      Method1 grow m a b = .blocked [] ∧ Method2 grow m = .blocked []) := by
  constructor
  · intro hfree
    constructor
    · rw [Method1_free grow m a b hfree]
      cases m.fake.Method1Stub
      · exact ⟨_, _, _, rfl, by decide, by decide, rfl, rfl⟩
      · exact ⟨_, _, _, rfl, by decide, by decide, rfl, rfl⟩
    · rw [Method2_free grow m hfree]
      cases m.fake.Method2Stub
      · exact ⟨_, _, rfl, by decide, by decide, rfl, rfl⟩
      · exact ⟨_, _, rfl, by decide, by decide, rfl, rfl⟩
  · intro hbusy
    exact ⟨Method1_busy grow m a b hbusy, Method2_busy grow m hbusy⟩

/-- C8, at a stubbed fake (stub branch) and at a fresh fake held by a reader. -/
theorem methods_release_the_lock_witness :
    (stubbedFake.fake.RWMutex = free ∧
      (∃ (r : GoError) (m1 : Memory) (tr : List Event),
        Method1 doubling stubbedFake [97] 1 = .returned r m1 tr ∧
          tr.count Event.Lock = 1 ∧ tr.count Event.Unlock = 1 ∧
          tr.getLast? = some Event.Unlock ∧ m1.fake.RWMutex = stubbedFake.fake.RWMutex) ∧
      (∃ (m1 : Memory) (tr : List Event),
        Method2 doubling stubbedFake = .returned () m1 tr ∧
          tr.count Event.Lock = 1 ∧ tr.count Event.Unlock = 1 ∧
          tr.getLast? = some Event.Unlock ∧ m1.fake.RWMutex = stubbedFake.fake.RWMutex)) ∧
    ((NewFakeSomeInterface.withMutex { writer := false, readerCount := 1 }).fake.RWMutex ≠ free ∧
      Method1 doubling (NewFakeSomeInterface.withMutex { writer := false, readerCount := 1 })
        [97] 1 = .blocked [] ∧
      Method2 doubling (NewFakeSomeInterface.withMutex { writer := false, readerCount := 1 }) =
        .blocked []) :=
  ⟨⟨rfl, (methods_release_the_lock doubling stubbedFake [97] 1).1 rfl⟩,
    by decide,
    (methods_release_the_lock doubling
      (NewFakeSomeInterface.withMutex { writer := false, readerCount := 1 }) [97] 1).2
      (by decide)⟩

/-! ## Which operations take the mutex -/

theorem invocations_write_under_lock (grow : Nat → Nat) (m : Memory) (a : GoString) (b : Nat)
    (mu : sync.RWMutex) (slot : Slot) :
    (Event.write slot mu ∈ (Method1 grow m a b).trace → mu = heldExclusive) ∧
    (Event.write slot mu ∈ (Method2 grow m).trace → mu = heldExclusive) := by
  constructor
  · by_cases hfree : m.fake.RWMutex = free
    · rw [Method1_free grow m a b hfree]
      cases m.fake.Method1Stub <;> simp [Outcome.trace]
    · rw [Method1_busy grow m a b hfree]
      simp [Outcome.trace]
  · by_cases hfree : m.fake.RWMutex = free
    · rw [Method2_free grow m hfree]
      cases m.fake.Method2Stub <;> simp [Outcome.trace]
    · rw [Method2_busy grow m hfree]
      simp [Outcome.trace]

theorem accessors_read_under_rlock (m : Memory) (mu : sync.RWMutex) (slot : Slot) :
    (Event.read slot mu ∈ (Method1Calls m).trace → mu.writer = false ∧ 0 < mu.readerCount) ∧
    (Event.read slot mu ∈ (Method2Calls m).trace → mu.writer = false ∧ 0 < mu.readerCount) := by
  constructor
  · cases hw : m.fake.RWMutex.writer
    · rw [Method1Calls_noWriter m hw]
      simp only [Outcome.trace, List.mem_cons, List.mem_singleton, Event.read.injEq,
        false_or, or_false, reduceCtorEq, List.not_mem_nil]
      rintro ⟨_, rfl⟩
      exact ⟨rfl, Nat.succ_pos _⟩
    · rw [Method1Calls_writer m hw]
      simp [Outcome.trace]
  · cases hw : m.fake.RWMutex.writer
    · rw [Method2Calls_noWriter m hw]
      simp only [Outcome.trace, List.mem_cons, List.mem_singleton, Event.read.injEq,
        false_or, or_false, reduceCtorEq, List.not_mem_nil]
      rintro ⟨_, rfl⟩
      exact ⟨rfl, Nat.succ_pos _⟩
    · rw [Method2Calls_writer m hw]
      simp [Outcome.trace]

/-- C3. The setter `Method1Returns` never calls `Lock`: on every fake it
returns after the single event "write `method1Returns`", performed with the
mutex in the state the caller left it; on a fresh fake that write happens with
the mutex free. -/
theorem Method1Returns_writes_without_lock (m : Memory) (e : GoError) :
    (Method1Returns m e).trace = [Event.write Slot.method1Returns m.fake.RWMutex] ∧
    Event.Lock ∉ (Method1Returns m e).trace ∧
    (Method1Returns NewFakeSomeInterface e).trace =
      [Event.write Slot.method1Returns { writer := false, readerCount := 0 }] := by
  refine ⟨rfl, ?_, rfl⟩
  simp [Method1Returns, Outcome.trace]

/-- C5. `Method1("a", 1)` on the stubbed fake calls the stub with the mutex held
exclusively, between `Lock` and `Unlock`; the memory of that moment is
`atStubCall`, the memory the call returns but for the released mutex. In it
the methods `Method1`, `Method2`, `Method1Calls` and `Method2Calls` wait for
the mutex, but `Method1Returns` returns without any mutex call. -/
theorem stub_called_under_lock_setter_not_blocked :
    (Method1 doubling stubbedFake [97] 1).trace =
      [Event.Lock, Event.write Slot.method1Calls heldExclusive,
        Event.stub 1 heldExclusive, Event.Unlock] ∧
    Method1 doubling stubbedFake [97] 1 =
      .returned (some [101]) (atStubCall.withMutex free)
        [Event.Lock, Event.write Slot.method1Calls heldExclusive,
          Event.stub 1 heldExclusive, Event.Unlock] ∧
    atStubCall.fake.RWMutex = heldExclusive ∧
    (Method2 doubling stubbedFake).trace =
      [Event.Lock, Event.write Slot.method2Calls heldExclusive,
        Event.stub 2 heldExclusive, Event.Unlock] ∧
    Method1 doubling atStubCall [98] 2 = .blocked [] ∧
    Method2 doubling atStubCall = .blocked [] ∧
    Method1Calls atStubCall = .blocked [] ∧
    Method2Calls atStubCall = .blocked [] ∧
    (Method1Returns atStubCall none).value = some () ∧
    (Method1Returns atStubCall none).trace =
      [Event.write Slot.method1Returns heldExclusive] :=
  ⟨rfl, rfl, rfl, rfl, rfl, rfl, rfl, rfl, rfl, rfl⟩

theorem stub_sees_lock_held (grow : Nat → Nat) (m : Memory) (a : GoString) (b : Nat)
    (k : Nat) (mu : sync.RWMutex) :
    (Event.stub k mu ∈ (Method1 grow m a b).trace → mu = heldExclusive) ∧
    (Event.stub k mu ∈ (Method2 grow m).trace → mu = heldExclusive) := by
  constructor
  · by_cases hfree : m.fake.RWMutex = free
    · rw [Method1_free grow m a b hfree]
      cases m.fake.Method1Stub <;> simp [Outcome.trace]
    · rw [Method1_busy grow m a b hfree]
      simp [Outcome.trace]
  · by_cases hfree : m.fake.RWMutex = free
    · rw [Method2_free grow m hfree]
      cases m.fake.Method2Stub <;> simp [Outcome.trace]
    · rw [Method2_busy grow m hfree]
      simp [Outcome.trace]

/-! ## Snapshots of the call logs -/

theorem after_snapshot1 (grow : Nat → Nat) (m : Memory) (op : Op) (t : Slice)
    (hs : t.Snapshot m.calls1 m.fake.method1Calls) :
    t.elems (op.after grow m).calls1 = t.elems m.calls1 ∧
      t.Snapshot (op.after grow m).calls1 (op.after grow m).fake.method1Calls := by
  cases op with
  | Method1 a b => exact goAppend_snapshot grow _ m.calls1 m.fake.method1Calls t _ hs
  | _ => exact ⟨rfl, hs⟩

theorem after_snapshot2 (grow : Nat → Nat) (m : Memory) (op : Op) (t : Slice)
    (hs : t.Snapshot m.calls2 m.fake.method2Calls) :
    t.elems (op.after grow m).calls2 = t.elems m.calls2 ∧
      t.Snapshot (op.after grow m).calls2 (op.after grow m).fake.method2Calls := by
  cases op with
  | Method2 => exact goAppend_snapshot grow _ m.calls2 m.fake.method2Calls t _ hs
  | _ => exact ⟨rfl, hs⟩

theorem runOps_snapshot (grow : Nat → Nat) (ops : List Op) (t1 t2 : Slice) :
    ∀ m : Memory, m.WF → t1.Snapshot m.calls1 m.fake.method1Calls →
      t2.Snapshot m.calls2 m.fake.method2Calls →
      ∃ m1 : Memory, runOps grow ops m = some m1 ∧ m1.WF ∧
        t1.elems m1.calls1 = t1.elems m.calls1 ∧ t2.elems m1.calls2 = t2.elems m.calls2 := by
  induction ops with
  | nil =>
    intro m hwf _ _
    exact ⟨m, rfl, hwf, rfl, rfl⟩
  | cons op ops ih =>
    intro m hwf hs1 hs2
    obtain ⟨happ, hwf1⟩ := apply_WF grow m op hwf
    obtain ⟨he1, hs1a⟩ := after_snapshot1 grow m op t1 hs1
    obtain ⟨he2, hs2a⟩ := after_snapshot2 grow m op t2 hs2
    obtain ⟨m1, hrun, hwf2, h1, h2⟩ := ih (op.after grow m) hwf1 hs1a hs2a
    refine ⟨m1, ?_, hwf2, h1.trans he1, h2.trans he2⟩
    simp only [runOps, happ]
    exact hrun

theorem store_elems {α : Type} (h : Arrays α) (s : Slice) (i : Nat) (v : α)
    (hwf : s.WF h) (hi : i < s.len) :
    ∃ h1 : Arrays α, s.store h i v = some h1 ∧ s.WF h1 ∧
      s.elems h1 = (s.elems h).set i v := by
  have hpos : 0 < (s.backing h).length := by
    have := hwf.1
    have := hwf.2
    omega
  have hb := backing_set_self h s ((s.backing h).set i v) hpos
  refine ⟨h.set s.array ((s.backing h).set i v), by simp [Slice.store, hi], ?_, ?_⟩
  · refine ⟨hwf.1, ?_⟩
    rw [hb, List.length_set]
    exact hwf.2
  · simp only [Slice.elems, hb, List.set_take]

/-- C4 as stated fails: after `Method1("a", 1)`, assigning `{"x", 9}` to entry 0
of the slice returned by `Method1Calls()` changes what the next
`Method1Calls()` returns from `[{"a", 1}]` to `[{"x", 9}]`. -/
theorem snapshot_assignment_changes_log :
    snapshotAssignment =
      some ([{ Arg1 := [97], Arg2 := 1 }], [{ Arg1 := [120], Arg2 := 9 }]) ∧
    ([{ Arg1 := [97], Arg2 := 1 }] : List Method1Call) ≠ [{ Arg1 := [120], Arg2 := 9 }] := by
  decide

/-- C4, amended. On a fake whose mutex is free, `Method1Calls()` and
`Method2Calls()` return the header of the internal log, sharing its backing
array, and leave the fake as it was. Every later sequence of operations on the
fake returns and leaves the entries seen through these headers as they were.
An assignment of `v` to entry `i` of the header returned by `Method1Calls()`,
made before any other operation on the fake, is seen by the next
`Method1Calls()`: it returns the earlier entries with entry `i` replaced by
`v`. Such an assignment to an entry of the header returned by
`Method2Calls()` changes nothing in what the next `Method2Calls()` returns. -/
theorem snapshots_share_the_log (grow : Nat → Nat) (m : Memory) (hwf : m.WF) :
    ∃ (snap1 snap2 : Slice) (tr1 tr2 : List Event),
      Method1Calls m = .returned snap1 m tr1 ∧ Method2Calls m = .returned snap2 m tr2 ∧
      snap1 = m.fake.method1Calls ∧ snap2 = m.fake.method2Calls ∧
      (∀ ops : List Op, ∃ m1 : Memory, runOps grow ops m = some m1 ∧
        snap1.elems m1.calls1 = snap1.elems m.calls1 ∧
        snap2.elems m1.calls2 = snap2.elems m.calls2) ∧
      (∀ (i : Nat) (v : Method1Call), i < snap1.len →
        ∃ (arrays : Arrays Method1Call) (log : Slice) (tr : List Event),
          snap1.store m.calls1 i v = some arrays ∧
          Method1Calls { m with calls1 := arrays } =
            .returned log { m with calls1 := arrays } tr ∧
          log.elems arrays = (snap1.elems m.calls1).set i v ∧
          (log.elems arrays)[i]? = some v) ∧
      (∀ (i : Nat) (v : Unit), i < snap2.len →
        ∃ (arrays : Arrays Unit) (log : Slice) (tr : List Event),
          snap2.store m.calls2 i v = some arrays ∧
          Method2Calls { m with calls2 := arrays } =
            .returned log { m with calls2 := arrays } tr ∧
          log.elems arrays = snap2.elems m.calls2) := by
  have hw : m.fake.RWMutex.writer = false := by rw [hwf.1]
  refine ⟨m.fake.method1Calls, m.fake.method2Calls, _, _, Method1Calls_noWriter m hw,
    Method2Calls_noWriter m hw, rfl, rfl, ?_, ?_, ?_⟩
  · intro ops
    obtain ⟨m1, hrun, _, h1, h2⟩ := runOps_snapshot grow ops m.fake.method1Calls
      m.fake.method2Calls m hwf (snapshot_self _ _ hwf.2.1) (snapshot_self _ _ hwf.2.2)
    exact ⟨m1, hrun, h1, h2⟩
  · intro i v hi
    obtain ⟨arrays, hstore, _, helems⟩ := store_elems m.calls1 m.fake.method1Calls i v hwf.2.1 hi
    have hw1 : ({ m with calls1 := arrays } : Memory).fake.RWMutex.writer = false := hw
    refine ⟨arrays, m.fake.method1Calls, _, hstore, Method1Calls_noWriter _ hw1, helems, ?_⟩
    rw [helems]
    have hlen : i < (m.fake.method1Calls.elems m.calls1).length := by
      rw [elems_length _ _ hwf.2.1]
      exact hi
    simp [List.getElem?_set, hlen]
  · intro i v hi
    obtain ⟨arrays, hstore, _, helems⟩ := store_elems m.calls2 m.fake.method2Calls i v hwf.2.2 hi
    have hw1 : ({ m with calls2 := arrays } : Memory).fake.RWMutex.writer = false := hw
    refine ⟨arrays, m.fake.method2Calls, _, hstore, Method2Calls_noWriter _ hw1, ?_⟩
    rw [helems]
    apply List.ext_getElem
    · simp
    · intro n h1 h2
      rfl

theorem loggedFake_WF : loggedFake.WF :=
  record2_WF doubling _ (record1_WF doubling stubbedFake [97] 1 stubbedFake_WF)

/-- C4 amended, at the stubbed fake after one `Method1` and one `Method2` call. -/
theorem snapshots_share_the_log_witness :
    loggedFake.WF ∧
    ∃ (snap1 snap2 : Slice) (tr1 tr2 : List Event),
      Method1Calls loggedFake = .returned snap1 loggedFake tr1 ∧
      Method2Calls loggedFake = .returned snap2 loggedFake tr2 ∧
      snap1 = loggedFake.fake.method1Calls ∧ snap2 = loggedFake.fake.method2Calls ∧
      (∀ ops : List Op, ∃ m1 : Memory, runOps doubling ops loggedFake = some m1 ∧
        snap1.elems m1.calls1 = snap1.elems loggedFake.calls1 ∧
        snap2.elems m1.calls2 = snap2.elems loggedFake.calls2) ∧
      (∀ (i : Nat) (v : Method1Call), i < snap1.len →
        ∃ (arrays : Arrays Method1Call) (log : Slice) (tr : List Event),
          snap1.store loggedFake.calls1 i v = some arrays ∧
          Method1Calls { loggedFake with calls1 := arrays } =
            .returned log { loggedFake with calls1 := arrays } tr ∧
          log.elems arrays = (snap1.elems loggedFake.calls1).set i v ∧
          (log.elems arrays)[i]? = some v) ∧
      (∀ (i : Nat) (v : Unit), i < snap2.len →
        ∃ (arrays : Arrays Unit) (log : Slice) (tr : List Event),
          snap2.store loggedFake.calls2 i v = some arrays ∧
          Method2Calls { loggedFake with calls2 := arrays } =
            .returned log { loggedFake with calls2 := arrays } tr ∧
          log.elems arrays = snap2.elems loggedFake.calls2) :=
  ⟨loggedFake_WF, snapshots_share_the_log doubling loggedFake loggedFake_WF⟩

/-! ## main: the derived interface name -/

theorem Base_ne_nil (p : GoString) : path.Base p ≠ [] := by
  unfold path.Base
  split
  · simp
  · simp only
    split
    · simp
    · assumption

/-- C9. For every string `sourceDir`, the empty string and `"/"` included,
`path.Base(sourceDir)` is not empty (it is `"."` for the empty string and `"/"`
for `"/"`), and, `strings.ToUpper` returning a non-empty string for a non-empty
one, both slice expressions `[:1]` and `[1:]` are in range: the derived
interface name is computed without a panic. -/
theorem derived_name_in_range (ToUpper : GoString → GoString)
    (hUpper : ∀ s : GoString, s ≠ [] → ToUpper s ≠ []) (sourceDir : GoString) :
    path.Base sourceDir ≠ [] ∧ path.Base [] = [46] ∧ path.Base [47] = [47] ∧
    sliceTo (ToUpper (path.Base sourceDir)) 1 = some ((ToUpper (path.Base sourceDir)).take 1) ∧
    sliceFrom (path.Base sourceDir) 1 = some ((path.Base sourceDir).drop 1) ∧
    derivedInterfaceName ToUpper sourceDir =
      some ((ToUpper (path.Base sourceDir)).take 1 ++ (path.Base sourceDir).drop 1) := by
  have hb := Base_ne_nil sourceDir
  have hu := hUpper _ hb
  have h1 : 1 ≤ (path.Base sourceDir).length := List.length_pos.mpr hb
  have h2 : 1 ≤ (ToUpper (path.Base sourceDir)).length := List.length_pos.mpr hu
  refine ⟨hb, by decide, by decide, ?_, ?_, ?_⟩
  · simp [sliceTo, h2]
  · simp [sliceFrom, h1]
  · simp [derivedInterfaceName, sliceTo, sliceFrom, h1, h2]

theorem asciiToUpper_ne_nil (s : GoString) (h : s ≠ []) : asciiToUpper s ≠ [] := by
  simpa [asciiToUpper] using h

/-- C9, at `sourceDir = "a/pkg/"` with the ASCII `ToUpper`: the name is `"Pkg"`. -/
theorem derived_name_in_range_witness :
    (∀ s : GoString, s ≠ [] → asciiToUpper s ≠ []) ∧
    path.Base [97, 47, 112, 107, 103, 47] = [112, 107, 103] ∧
    derivedInterfaceName asciiToUpper [97, 47, 112, 107, 103, 47] = some [80, 107, 103] ∧
    derivedInterfaceName asciiToUpper [] = some [46] ∧
    derivedInterfaceName asciiToUpper [47] = some [47] ∧
    path.Base [97, 47, 112, 107, 103, 47] ≠ [] :=
  ⟨asciiToUpper_ne_nil, by decide, by decide, by decide, by decide,
    (derived_name_in_range asciiToUpper asciiToUpper_ne_nil [97, 47, 112, 107, 103, 47]).1⟩

/-! ## main: errors of the locator and of the generators -/

theorem bind_done {α β : Type} (v : α) (e : List Effect) (f : α → Proc β) :
    (Proc.done v e >>= f) = (f v).after e := rfl

theorem bind_exited {α β : Type} (c : Nat) (e : List Effect) (f : α → Proc β) :
    (Proc.exited c e >>= f) = Proc.exited c e := rfl

theorem pure_done {α : Type} (v : α) : (pure v : Proc α) = Proc.done v [] := rfl

/-- C7. In a run with at least one argument whose arguments parse, `main`
ends through `fail`, with exit status 1 and the error message as its only
effect after those of the argument parser (nothing is created, written or
printed by `printCode`), as soon as `locator.GetFunctionsFromDirectory` or
`GenerateInterface` (in interface-generating mode), or
`locator.GetInterfaceFromFilePath` or `GenerateFake` (otherwise) returns an
error. -/
theorem main_stops_at_first_error {Functions Iface : Type} (w : World Functions Iface)
    (parsed : ParsedArguments) (fx : List Effect) (msg : GoString)
    (hargs : 1 ≤ w.Args.length) (hparse : w.ParseArguments w.Args = .done parsed fx) :
    (parsed.GeneratingInterface = true →
      ((w.GetFunctionsFromDirectory (path.Base parsed.SourcePackageDir)
          parsed.SourcePackageDir).2 = some msg →
        main w = .exited 1 (fx ++ [Effect.Printf "%v\n" [msg]])) ∧
      (∀ name : GoString,
        (w.GetFunctionsFromDirectory (path.Base parsed.SourcePackageDir)
          parsed.SourcePackageDir).2 = none →
        derivedInterfaceName w.ToUpper parsed.SourcePackageDir = some name →
        (w.GenerateInterface
          (w.GetFunctionsFromDirectory (path.Base parsed.SourcePackageDir)
            parsed.SourcePackageDir).1
          parsed.SourcePackageDir name parsed.DestinationPackageName).2 = some msg →
        main w = .exited 1 (fx ++ [Effect.Printf "%v\n" [msg]]))) ∧
    (parsed.GeneratingInterface = false →
      ((w.GetInterfaceFromFilePath parsed.InterfaceName parsed.SourcePackageDir).2 = some msg →
        main w = .exited 1 (fx ++ [Effect.Printf "%v\n" [msg]])) ∧
      (∀ iface : Iface,
        w.GetInterfaceFromFilePath parsed.InterfaceName parsed.SourcePackageDir =
          (some iface, none) →
        (w.GenerateFake iface parsed.FakeImplName parsed.DestinationPackageName).2 = some msg →
        main w = .exited 1 (fx ++ [Effect.Printf "%v\n" [msg]]))) := by
  have hlen : ¬ w.Args.length < 1 := by omega
  refine ⟨fun hmode => ⟨?_, ?_⟩, fun hmode => ⟨?_, ?_⟩⟩
  · intro herr
    simp [main, hlen, hparse, hmode, herr, bind_done, bind_exited, pure_done, failOn, fail,
      Proc.after]
  · intro name hok hname herr
    simp [main, hlen, hparse, hmode, hok, hname, herr, bind_done, bind_exited, pure_done,
      failOn, fail, Proc.after, orPanic]
  · intro herr
    simp [main, hlen, hparse, hmode, herr, bind_done, bind_exited, pure_done, failOn, fail,
      Proc.after]
  · intro iface hok herr
    simp [main, hlen, hparse, hmode, hok, herr, bind_done, bind_exited, pure_done,
      failOn, fail, Proc.after, orPanic]

/-- C7, at four example worlds, one for each call that returns the error `"e"`. -/
theorem main_stops_at_first_error_witness :
    main (exampleWorld true (some [101]) none none none) =
      .exited 1 ([] ++ [Effect.Printf "%v\n" [[101]]]) ∧
    main (exampleWorld true none (some [101]) none none) =
      .exited 1 ([] ++ [Effect.Printf "%v\n" [[101]]]) ∧
    main (exampleWorld false none none (some [101]) none) =
      .exited 1 ([] ++ [Effect.Printf "%v\n" [[101]]]) ∧
    main (exampleWorld false none none none (some [101])) =
      .exited 1 ([] ++ [Effect.Printf "%v\n" [[101]]]) :=
  ⟨((main_stops_at_first_error (exampleWorld true (some [101]) none none none) _ [] [101]
      (by decide) rfl).1 rfl).1 rfl,
    ((main_stops_at_first_error (exampleWorld true none (some [101]) none none) _ [] [101]
      (by decide) rfl).1 rfl).2 [80, 107, 103] rfl (by decide) rfl,
    ((main_stops_at_first_error (exampleWorld false none none (some [101]) none) _ [] [101]
      (by decide) rfl).2 rfl).1 rfl,
    ((main_stops_at_first_error (exampleWorld false none none none (some [101])) _ [] [101]
      (by decide) rfl).2 rfl).2 () rfl rfl⟩

/-- A run without any error reaches `printCode` and `reportDone`: the file is
created and written, and the report is printed. -/
theorem main_without_error :
    main (exampleWorld false none none none none) =
      .done () [Effect.MkdirAll [111, 117, 116], Effect.Create [111, 117, 116],
        Effect.WriteString [111, 117, 116] [99],
        Effect.Printf "Wrote `%s` to `%s`\n" [[70], [111, 117, 116]]] := by
  simp [main, exampleWorld, bind_done, bind_exited, pure_done, failOn, fail, Proc.after,
    orPanic, printCode, reportDone, cwd, emit]

end Counterfeiter
